import Mathlib

/-!
Shallow embedding of the sora-prompt-queue Chrome extension's coordination
core (content_script.js, background service worker, popup.js), together with
proofs about its scheduling, classification, leader election and credential
logic.  Pure functions of the JavaScript source are translated into Lean
functions; the content script's single-threaded event loop is modelled as a
step relation on an explicit state record.
-/

namespace Sora

/-! ## Generic list helpers used by the embedding -/

/-- Update the first element satisfying the predicate (models the JS pattern
of `find` followed by in-place mutation of the found object). -/
def updateFirst (p : α → Bool) (f : α → α) : List α → List α
  | [] => []
  | x :: xs => if p x then f x :: xs else x :: updateFirst p f xs

/-- Remove the first element satisfying the predicate (models `findIndex`
followed by `splice(index, 1)`). -/
def removeFirst (p : α → Bool) : List α → List α
  | [] => []
  | x :: xs => if p x then xs else x :: removeFirst p xs

/-! ## String helpers: JS `trim`, case-insensitive pattern matching -/

/-- Whitespace characters removed by JS String.prototype.trim (ASCII part). -/
def isWS (c : Char) : Bool := c = ' ' ∨ c = '\t' ∨ c = '\n' ∨ c = '\r'

/-- Drop trailing whitespace characters. -/
def trimRight : List Char → List Char
  | [] => []
  | c :: cs =>
    if (trimRight cs).isEmpty then (if isWS c then [] else [c])
    else c :: trimRight cs

/-- JS String.prototype.trim on a character list. -/
def trimChars (l : List Char) : List Char := trimRight (l.dropWhile isWS)

/-- JS String.prototype.trim. -/
def trimS (s : String) : String := String.mk (trimChars s.data)

/-- Suffix strictly after the leftmost occurrence of `pat`, if `pat` occurs. -/
def afterFirst (pat : List Char) : List Char → Option (List Char)
  | [] => if pat.isEmpty then some [] else none
  | c :: t =>
    if pat.isPrefixOf (c :: t) then some ((c :: t).drop pat.length)
    else afterFirst pat t

/-- Substring containment test. -/
def containsSub (hay pat : List Char) : Bool := (afterFirst pat hay).isSome

/-- Line terminators that the JS regex metacharacter dot does not match. -/
def isNL (c : Char) : Bool := c = '\n' ∨ c = '\r'

/-- Split a character list at line terminators. -/
def splitOnNL : List Char → List (List Char)
  | [] => [[]]
  | c :: rest =>
    let r := splitOnNL rest
    if isNL c then [] :: r
    else
      match r with
      | [] => [[c]]
      | l :: ls => (c :: l) :: ls

/-- The listed fragments occur in order within the line (the embedding of a
regex of the shape frag1 dot-star frag2 dot-star frag3 on a single line). -/
def inOrder (l : List Char) (pats : List (List Char)) : Bool :=
  (pats.foldl (fun acc pat => acc.bind (afterFirst pat)) (some l)).isSome

/-- Lower-cased character data of a string (embeds the regex i flag). -/
def lowerData (s : String) : List Char := s.data.map Char.toLower

/-- Case-insensitive substring test on strings. -/
def icContains (s pat : String) : Bool := containsSub (lowerData s) (lowerData pat)

/-- Case-insensitive in-order fragment test, confined to a single line
(regex dot does not cross line terminators). -/
def icInOrder (s : String) (pats : List String) : Bool :=
  (splitOnNL (lowerData s)).any (fun ln => inOrder ln (pats.map lowerData))

/-! ## JS value coercions -/

/-- `x || d` on an optional integer field (0 is falsy in JS). -/
def jsOrInt (x : Option Int) (d : Int) : Int :=
  match x with
  | some n => if n = 0 then d else n
  | none => d

/-- `x || d` on an optional string field (the empty string is falsy in JS). -/
def jsOrStr (x : Option String) (d : String) : String :=
  match x with
  | some s => if s = "" then d else s
  | none => d

/-! ## 429 response classifier (background worker, parse429Response) -/

/-- The rate_limit_and_credit_balance sub-object of a 429 response body. -/
structure RLCB where
  rate_limit_reached : Option Bool
  credit_remaining : Option Int
  access_resets_in_seconds : Option Int
  deriving DecidableEq, Repr

/-- The error.details sub-object of a 429 response body. -/
structure ErrDetails where
  num_tasks : Option Int
  deriving DecidableEq, Repr

/-- The error sub-object of a 429 response body. -/
structure ErrObj where
  code : Option String
  message : Option String
  details : Option ErrDetails
  deriving DecidableEq, Repr

/-- A 429 response body as read by parse429Response.  The top-level
resetSeconds field appears in the specification's example input; the code
never reads it, but it is part of the input space of JSON bodies. -/
structure Body429 where
  type : Option String := none
  resetSeconds : Option Int := none
  rate_limit_and_credit_balance : Option RLCB := none
  error : Option ErrObj := none
  deriving DecidableEq, Repr

/-- Result of parse429Response, a closed tagged variant of the three
rate-limit classifications. -/
inductive ParseResult where
  | unknown (message : String)
  | daily (message : String) (resetSeconds : Int) (resetTime : Option Int)
      (creditRemaining : Int)
  | concurrent (message : String) (numTasks : Int)
  deriving DecidableEq, Repr

/-- The daily/credit-exhaustion test of parse429Response: an explicit
rate_limit_exhausted type, or rate_limit_reached true with zero credit. -/
def dailyCheck (d : Body429) : Bool :=
  d.type = some "rate_limit_exhausted" ∨
    (d.rate_limit_and_credit_balance.bind (·.rate_limit_reached) = some true ∧
      d.rate_limit_and_credit_balance.bind (·.credit_remaining) = some 0)

/-- error.code of a 429 body (optional chaining). -/
def errCode (d : Body429) : Option String := d.error.bind (·.code)

/-- error.message of a 429 body with the JS default of the empty string. -/
def errMessage (d : Body429) : String := jsOrStr (d.error.bind (·.message)) ""

/-- error.details.num_tasks of a 429 body (optional chaining). -/
def errNumTasks (d : Body429) : Option Int :=
  (d.error.bind (·.details)).bind (·.num_tasks)

/-- The concurrent-limit test of parse429Response: a specific error code, a
num_tasks field equal to 3, or one of four known message patterns matched
case-insensitively. -/
def concCheck (d : Body429) : Bool :=
  errCode d = some "too_many_concurrent_tasks" ∨
  errNumTasks d = some 3 ∨
  icContains (errMessage d) "you already have 3 generation in progress" ∨
  icContains (errMessage d) "you already have 3 generations in progress" ∨
  icContains (errMessage d) "you can only generate 3 video at a time" ∨
  icContains (errMessage d) "you can only generate 3 videos at a time" ∨
  icContains (errMessage d) "too many concurrent" ∨
  icInOrder (errMessage d) ["maximum", "concurrent", "generations"]

/-- access_resets_in_seconds with the JS default 0 (the code's || 0). -/
def dailyResetSeconds (d : Body429) : Int :=
  jsOrInt (d.rate_limit_and_credit_balance.bind (·.access_resets_in_seconds)) 0

/-- parse429Response of the background worker: classifies a 429 body as
daily limit, concurrent limit, or unknown rate limit, in that order. -/
def parse429 (data : Option Body429) (now : Int) : ParseResult :=
  match data with
  | none => .unknown "Rate limit reached (unknown type)"
  | some d =>
    if dailyCheck d then
      let resetSeconds := dailyResetSeconds d
      .daily "Daily generation limit reached."
        resetSeconds
        (if resetSeconds > 0 then some (now + resetSeconds * 1000) else none)
        (jsOrInt (d.rate_limit_and_credit_balance.bind (·.credit_remaining)) 0)
    else if concCheck d then
      .concurrent
        (jsOrStr (d.error.bind (·.message))
          "Maximum concurrent generations reached (3).")
        (jsOrInt (errNumTasks d) 3)
    else
      .unknown (jsOrStr (d.error.bind (·.message)) "Rate limit reached.")

/-! ## Queue data model (content_script.js) -/

/-- Status of a queue item. -/
inductive Status where
  | queued
  | sending
  | error
  | submitted
  deriving DecidableEq, Repr

/-- Submission options as passed into addToQueue (fields may be absent). -/
structure OptionsIn where
  orientation : Option String := none
  size : Option String := none
  n_frames : Option Nat := none
  model : Option String := none
  deriving DecidableEq, Repr

/-- Resolved submission options stored on a queue item. -/
structure QOptions where
  orientation : String
  size : String
  n_frames : Nat
  model : String
  deriving DecidableEq, Repr

/-- Default resolution of options in addToQueue: the object literal computes
a default for each field and the trailing spread then restores any field the
caller provided, so a provided field always wins. -/
def resolveOptions (o : OptionsIn) : QOptions :=
  { orientation := o.orientation.getD "portrait"
    size := o.size.getD "small"
    n_frames := o.n_frames.getD 300
    model := o.model.getD "sy_8" }

/-- A queue item.  Ids in the source are fresh strings built from the
current time and a random suffix; the embedding realises their freshness
with a per-state counter that the id is drawn from. -/
structure QItem where
  id : Nat
  prompt : String
  options : QOptions
  status : Status
  errorMessage : Option String
  retryCount : Nat
  createdAt : Nat
  updatedAt : Nat
  deriving DecidableEq, Repr

/-- The content script's mutable state (the fields of the coordination core;
UI caches and interval handles are omitted). -/
structure CSState where
  queue : List QItem
  nextId : Nat
  isAutomationEnabled : Bool
  isPaused : Bool
  pauseReason : Option String
  dailyLimitResetTime : Option Nat
  hasValidToken : Bool
  activeTaskCount : Nat
  lastSubmitTime : Option Nat
  isSubmitting : Bool
  isController : Bool
  inflight : Option Nat
  deriving DecidableEq, Repr

/-- The record persisted by saveQueue under the soraQueue storage key. -/
structure StoredData where
  queue : List QItem
  dailyLimitResetTime : Option Nat
  isPaused : Bool
  pauseReason : Option String
  isAutomationEnabled : Bool
  deriving DecidableEq, Repr

/-- saveQueue's projection of the state into storage. -/
def saveData (s : CSState) : StoredData :=
  { queue := s.queue
    dailyLimitResetTime := s.dailyLimitResetTime
    isPaused := s.isPaused
    pauseReason := s.pauseReason
    isAutomationEnabled := s.isAutomationEnabled }

/-! ## Queue operations (content_script.js) -/

/-- The fresh item built by addToQueue. -/
def mkItem (id : Nat) (prompt : String) (opts : OptionsIn) (now : Nat) : QItem :=
  { id := id
    prompt := trimS prompt
    options := resolveOptions opts
    status := .queued
    errorMessage := none
    retryCount := 0
    createdAt := now
    updatedAt := now }

/-- addToQueue: push a fresh queued item built from the trimmed prompt. -/
def addToQueue (s : CSState) (prompt : String) (opts : OptionsIn) (now : Nat) : CSState :=
  { s with queue := s.queue ++ [mkItem s.nextId prompt opts now], nextId := s.nextId + 1 }

/-- The enqueue entry points (panel add button, floating button, keyboard
shortcut): all trim the input, drop it when the trimmed form is empty, and
otherwise pass the trimmed prompt to addToQueue. -/
def enqueueClick (s : CSState) (input : String) (opts : OptionsIn) (now : Nat) : CSState :=
  if trimS input ≠ "" then addToQueue s (trimS input) opts now else s

/-- removeFromQueue: splice out the first item with the given id. -/
def removeFromQueue (s : CSState) (id : Nat) : CSState :=
  { s with queue := removeFirst (fun i => i.id == id) s.queue }

/-- moveUp on the queue list: swap the first item carrying the id with its
predecessor, unless it is already at the head. -/
def moveUpL (id : Nat) : List QItem → List QItem
  | [] => []
  | x :: xs =>
    if x.id == id then x :: xs
    else
      match xs with
      | [] => [x]
      | y :: rest => if y.id == id then y :: x :: rest else x :: moveUpL id (y :: rest)

/-- moveDown on the queue list: swap the first item carrying the id with its
successor, unless it is already last. -/
def moveDownL (id : Nat) : List QItem → List QItem
  | [] => []
  | x :: xs =>
    if x.id == id then
      match xs with
      | [] => [x]
      | y :: rest => y :: x :: rest
    else x :: moveDownL id xs

/-- moveUp handler. -/
def moveUpOp (s : CSState) (id : Nat) : CSState := { s with queue := moveUpL id s.queue }

/-- moveDown handler. -/
def moveDownOp (s : CSState) (id : Nat) : CSState := { s with queue := moveDownL id s.queue }

/-- The per-item mutation performed by updateItemStatus: set status and
error message, bump updatedAt, and increment retryCount exactly when the new
status is error. -/
def setStatus (st : Status) (msg : Option String) (now : Nat) (i : QItem) : QItem :=
  { i with status := st
           errorMessage := msg
           updatedAt := now
           retryCount := i.retryCount + (if st = .error then 1 else 0) }

/-- updateItemStatus: apply setStatus to the first item with the given id
(no effect when the id is absent). -/
def updateItemStatus (s : CSState) (id : Nat) (st : Status) (msg : Option String) (now : Nat) : CSState :=
  { s with queue := updateFirst (fun i => i.id == id) (setStatus st msg now) s.queue }

/-- The Clear Errors button: drop every item in error status. -/
def clearErrorsOp (s : CSState) : CSState :=
  { s with queue := s.queue.filter (fun i => i.status != Status.error) }

/-! ## Scheduler: admission checks and submission (content_script.js) -/

/-- The remote service's fixed concurrency limit (CONFIG.MAX_CONCURRENT_TASKS). -/
def MAX_CONCURRENT_TASKS : Nat := 3

/-- Minimum milliseconds between submissions (CONFIG.SUBMIT_COOLDOWN_MS). -/
def SUBMIT_COOLDOWN_MS : Nat := 2000

/-- Check 7 of checkAndSubmit: the daily-limit resume time is unset (or the
falsy timestamp 0) or has elapsed. -/
def dailyOk (s : CSState) (now : Nat) : Bool :=
  match s.dailyLimitResetTime with
  | none => true
  | some t => decide (t ≤ now)

/-- Check 8 of checkAndSubmit: no previous submission (or the falsy
timestamp 0), or the 2s cooldown has elapsed since it. -/
def cooldownOk (s : CSState) (now : Nat) : Bool :=
  match s.lastSubmitTime with
  | none => true
  | some t => t == 0 || decide (SUBMIT_COOLDOWN_MS ≤ now - t)

/-- The eight admission checks in the order the specification lists them. -/
def admissionChecks : List (CSState → Nat → Bool) :=
  [ fun s _ => s.isAutomationEnabled
  , fun s _ => !s.isPaused
  , fun s _ => !s.isSubmitting
  , fun s _ => s.hasValidToken
  , fun s _ => s.isController
  , fun s _ => decide (s.activeTaskCount < MAX_CONCURRENT_TASKS)
  , fun s now => dailyOk s now
  , fun s now => cooldownOk s now ]

/-- Conjunction of the eight admission checks. -/
def admission (s : CSState) (now : Nat) : Bool :=
  s.isAutomationEnabled && !s.isPaused && !s.isSubmitting && s.hasValidToken &&
    s.isController && decide (s.activeTaskCount < MAX_CONCURRENT_TASKS) &&
    dailyOk s now && cooldownOk s now

/-- The head-of-queue item: first in insertion order with status queued. -/
def firstQueued (q : List QItem) : Option QItem :=
  q.find? (fun i => i.status == Status.queued)

/-- checkAndSubmit together with the synchronous prefix of submitQueueItem:
evaluate the guards in source order, returning the state unchanged on the
first failing guard; when all pass and a queued item exists, set
isSubmitting, record lastSubmitTime, mark the item sending, and hand its id
to the remote submit collaborator (the returned option). -/
def checkAndSubmit (s : CSState) (now : Nat) : CSState × Option Nat :=
  if !s.isAutomationEnabled then (s, none)
  else if s.isPaused then (s, none)
  else if s.isSubmitting then (s, none)
  else if !s.hasValidToken then (s, none)
  else if !s.isController then (s, none)
  else if MAX_CONCURRENT_TASKS ≤ s.activeTaskCount then (s, none)
  else if !dailyOk s now then (s, none)
  else if !cooldownOk s now then (s, none)
  else
    match firstQueued s.queue with
    | none => (s, none)
    | some it =>
      (updateItemStatus { s with isSubmitting := true, lastSubmitTime := some now }
        it.id .sending none now, some it.id)

/-- A Submit tick as one step of the event loop: when checkAndSubmit hands
an item to the remote collaborator, that id becomes the in-flight call. -/
def submitTickOp (s : CSState) (now : Nat) : CSState :=
  match checkAndSubmit s now with
  | (s1, some id) => { s1 with inflight := some id }
  | (_, none) => s

/-- The failure kinds the submission path distinguishes. -/
inductive SubmitFailure where
  | concurrentLimit
  | dailyLimit (resetSeconds : Nat) (resetTime : Option Nat)
  | authError
  | rateLimitUnknown
  | other (msg : Option String)
  | exception (msg : String)
  deriving DecidableEq, Repr

/-- Current retryCount of the item with the given id (the handler reads it
through the live item object). -/
def retryCountOf (s : CSState) (id : Nat) : Nat :=
  ((s.queue.find? (fun i => i.id == id)).map (·.retryCount)).getD 0

/-- handleSubmitError: the switch over the failure kind for the in-flight
item. -/
def handleSubmitError (s : CSState) (id : Nat) (e : SubmitFailure) (now : Nat) : CSState :=
  match e with
  | .concurrentLimit =>
    { updateItemStatus s id .queued none now with activeTaskCount := MAX_CONCURRENT_TASKS }
  | .dailyLimit _ resetTime =>
    updateItemStatus
      { s with isPaused := true, pauseReason := some "daily_limit",
               dailyLimitResetTime := resetTime }
      id .queued none now
  | .authError =>
    updateItemStatus { s with hasValidToken := false } id .error (some "Token needed") now
  | .rateLimitUnknown =>
    if retryCountOf s id < 3 then updateItemStatus s id .queued none now
    else updateItemStatus s id .error (some "Rate limit (max retries)") now
  | .other msg => updateItemStatus s id .error (some (msg.getD "Unknown error")) now
  | .exception msg => updateItemStatus s id .error (some msg) now

/-- Resolution of the in-flight submission with success: remove the item,
optimistically bump the active count, clear the single-flight flag. -/
def completeSuccessOp (s : CSState) (now : Nat) : CSState :=
  match s.inflight with
  | none => s
  | some id =>
    { removeFromQueue s id with
        activeTaskCount := s.activeTaskCount + 1
        isSubmitting := false
        inflight := none }

/-- Resolution of the in-flight submission with a failure: run
handleSubmitError, then the finally block clears the single-flight flag. -/
def completeErrorOp (s : CSState) (e : SubmitFailure) (now : Nat) : CSState :=
  match s.inflight with
  | none => s
  | some id =>
    { handleSubmitError s id e now with isSubmitting := false, inflight := none }

/-! ## Pause, resume and automation toggles -/

/-- The panel's toggle-automation click handler.  The boolean records
whether the handler invoked checkAndSubmit afterwards. -/
def toggleAutomationClick (s : CSState) : CSState × Bool :=
  if s.isPaused && (s.pauseReason == some "daily_limit") then
    ({ s with isPaused := false, pauseReason := none }, true)
  else
    let s1 := { s with isAutomationEnabled := !s.isAutomationEnabled }
    (s1, s1.isAutomationEnabled)

/-- The panel's Retry Now button handler; always re-invokes checkAndSubmit. -/
def retryNowClick (s : CSState) : CSState × Bool :=
  ({ s with isPaused := false, pauseReason := none }, true)

/-- Truthy reset timestamp that has elapsed. -/
def dailyExpired (t? : Option Nat) (now : Nat) : Bool :=
  match t? with
  | some t => t != 0 && decide (t ≤ now)
  | none => false

/-- The periodic (30s) daily-limit sweep from init.  The boolean records
whether it invoked checkAndSubmit. -/
def dailySweepOp (s : CSState) (now : Nat) : CSState × Bool :=
  if dailyExpired s.dailyLimitResetTime now then
    if s.pauseReason == some "daily_limit" then
      ({ s with dailyLimitResetTime := none, isPaused := false, pauseReason := none }, true)
    else ({ s with dailyLimitResetTime := none }, false)
  else (s, false)

/-- TOKEN_CAPTURED message from the background worker. -/
def tokenCapturedOp (s : CSState) : CSState := { s with hasValidToken := true }

/-- TOKEN_CLEARED message from the background worker. -/
def tokenClearedOp (s : CSState) : CSState := { s with hasValidToken := false }

/-- A successful poll updates the active-task count. -/
def pollResultOp (s : CSState) (n : Nat) : CSState := { s with activeTaskCount := n }

/-- A heartbeat reply updates controller status. -/
def heartbeatResultOp (s : CSState) (b : Bool) : CSState := { s with isController := b }

/-- The popup's toggleAutomation on the stored record: resume when paused,
else flip the enabled flag. -/
def popupToggleData (d : StoredData) : StoredData :=
  if d.isPaused then { d with isPaused := false, pauseReason := none }
  else if d.isAutomationEnabled then { d with isAutomationEnabled := false }
  else { d with isAutomationEnabled := true }

/-- The content script's storage.onChanged listener applied to newly stored
data.  The boolean records whether it invoked checkAndSubmit (which happens
only when the enabled flag flips to true). -/
def storageChangedOp (s : CSState) (newData : StoredData) : CSState × Bool :=
  let changedEnable := newData.isAutomationEnabled != s.isAutomationEnabled
  ({ s with isAutomationEnabled := newData.isAutomationEnabled
            isPaused := newData.isPaused
            pauseReason := newData.pauseReason
            queue := newData.queue },
   changedEnable && newData.isAutomationEnabled)

/-- Reset items stuck in sending status (loadQueue's crash-recovery rule). -/
def resetSendingL (q : List QItem) : List QItem :=
  q.map (fun i => if i.status == Status.sending then { i with status := .queued } else i)

/-- loadQueue at (re)start of the content script: restore the persisted
fields, reset sending items to queued, apply the daily-limit expiry check,
and begin with fresh runtime flags (no in-flight call survives a restart). -/
def reloadOp (s : CSState) (now : Nat) : CSState :=
  let hit := dailyExpired s.dailyLimitResetTime now
  let unpause := hit && (s.pauseReason == some "daily_limit")
  { queue := resetSendingL s.queue
    nextId := s.nextId
    isAutomationEnabled := s.isAutomationEnabled
    isPaused := if unpause then false else s.isPaused
    pauseReason := if unpause then none else s.pauseReason
    dailyLimitResetTime := if hit then none else s.dailyLimitResetTime
    hasValidToken := false
    activeTaskCount := 0
    lastSubmitTime := none
    isSubmitting := false
    isController := s.isController
    inflight := none }

/-! ## The event-loop step relation of one leader instance -/

/-- One step of the content script's cooperative event loop: a user queue
operation, a Submit tick, the resolution of the in-flight submission, a
toggle/resume, a background message, a popup interaction through storage,
or a restart. -/
inductive Step : CSState → CSState → Prop where
  | enqueue (s : CSState) (input : String) (opts : OptionsIn) (now : Nat) :
      Step s (enqueueClick s input opts now)
  | remove (s : CSState) (id : Nat) : Step s (removeFromQueue s id)
  | moveUp (s : CSState) (id : Nat) : Step s (moveUpOp s id)
  | moveDown (s : CSState) (id : Nat) : Step s (moveDownOp s id)
  | clearErrors (s : CSState) : Step s (clearErrorsOp s)
  | submitTick (s : CSState) (now : Nat) : Step s (submitTickOp s now)
  | completeSuccess (s : CSState) (now : Nat) : Step s (completeSuccessOp s now)
  | completeError (s : CSState) (e : SubmitFailure) (now : Nat) :
      Step s (completeErrorOp s e now)
  | toggleAutomation (s : CSState) : Step s (toggleAutomationClick s).1
  | retryNow (s : CSState) : Step s (retryNowClick s).1
  | dailySweep (s : CSState) (now : Nat) : Step s (dailySweepOp s now).1
  | tokenCaptured (s : CSState) : Step s (tokenCapturedOp s)
  | tokenCleared (s : CSState) : Step s (tokenClearedOp s)
  | pollResult (s : CSState) (n : Nat) : Step s (pollResultOp s n)
  | heartbeatResult (s : CSState) (b : Bool) : Step s (heartbeatResultOp s b)
  | popupToggle (s : CSState) : Step s (storageChangedOp s (popupToggleData (saveData s))).1
  | popupClear (s : CSState) : Step s (storageChangedOp s { saveData s with queue := [] }).1
  | reload (s : CSState) (now : Nat) : Step s (reloadOp s now)

/-- The state of a freshly installed instance (empty storage). -/
def initState : CSState :=
  { queue := []
    nextId := 0
    isAutomationEnabled := true
    isPaused := false
    pauseReason := none
    dailyLimitResetTime := none
    hasValidToken := false
    activeTaskCount := 0
    lastSubmitTime := none
    isSubmitting := false
    isController := true
    inflight := none }

/-- States reachable by the event loop of one leader instance. -/
def Reachable (s : CSState) : Prop := Relation.ReflTransGen Step initState s

/-- Bound on an optional id. -/
def optBound (o : Option Nat) (n : Nat) : Bool :=
  match o with
  | none => true
  | some i => decide (i < n)

/-- The coupling invariant of the single-flight machinery: item ids are
distinct and below the freshness counter, the isSubmitting flag mirrors the
in-flight call, every sending item is the in-flight item, and the in-flight
item (while present) is in sending status. -/
def Inv (s : CSState) : Prop :=
  (s.queue.map (·.id)).Nodup ∧
  (∀ x ∈ s.queue, x.id < s.nextId) ∧
  s.isSubmitting = s.inflight.isSome ∧
  optBound s.inflight s.nextId = true ∧
  (∀ x ∈ s.queue, x.status = .sending → s.inflight = some x.id) ∧
  (∀ x ∈ s.queue, s.inflight = some x.id → x.status = .sending)

/-- Number of items in sending status. -/
def countSending (q : List QItem) : Nat := q.countP (fun i => i.status == Status.sending)

/-- Status of the item with the given id, none when no such item exists. -/
def statusOf (s : CSState) (id : Nat) : Option Status :=
  (s.queue.find? (fun i => i.id == id)).map (·.status)

/-- The allowed status evolutions of one item across one step: an item
enters sending only from queued (or stays sending), enters error only from
sending (or stays error), never leaves error except by removal, and a
removed id below the freshness counter never reappears. -/
def StatusStepOk (pre post : Option Status) (fresh : Prop) : Prop :=
  (post = some .sending → pre = some .queued ∨ pre = some .sending) ∧
  (post = some .error → pre = some .sending ∨ pre = some .error) ∧
  (pre = some .error → post = some .error ∨ post = none) ∧
  (pre = none → fresh → post = none)

/-! ## Multi-tab coordination (background worker) -/

/-- The lease record in shared storage: the controller tab id and the
timestamp of its last heartbeat. -/
structure LeaderStore where
  controllerTab : Option Nat
  controllerHeartbeat : Option Nat
  deriving DecidableEq, Repr

/-- The lease staleness threshold in milliseconds. -/
def LEASE_STALE_MS : Nat := 10000

/-- registerController: claim the lease when it is absent or its heartbeat
is stale by more than 10s; otherwise keep the current controller unless its
tab is gone, in which case claim.  Returns the updated store and whether the
caller is now the controller. -/
def registerController (tabId now : Nat) (store : LeaderStore) (tabAlive : Nat → Bool) :
    LeaderStore × Bool :=
  let lastHeartbeat := store.controllerHeartbeat.getD 0
  let claimed : LeaderStore := { controllerTab := some tabId, controllerHeartbeat := some now }
  match store.controllerTab with
  | none => (claimed, true)
  | some cur =>
    if LEASE_STALE_MS < now - lastHeartbeat then (claimed, true)
    else if tabAlive cur then (store, cur == tabId)
    else (claimed, true)

/-- handleHeartbeat: renew the heartbeat when the caller owns the lease;
otherwise report non-controller without touching the lease. -/
def handleHeartbeat (tabId now : Nat) (store : LeaderStore) : LeaderStore × Bool :=
  if store.controllerTab == some tabId then
    ({ store with controllerHeartbeat := some now }, true)
  else (store, false)

/-! ## Manual token setting (background worker, setManualToken) -/

/-- A loosely typed JS value for the token field of the payload. -/
inductive JVal where
  | vStr (s : String)
  | vNum (n : Int)
  | vBool (b : Bool)
  deriving DecidableEq, Repr

/-- JS truthiness of such a value. -/
def truthy : JVal → Bool
  | .vStr s => s != ""
  | .vNum n => n != 0
  | .vBool b => b

/-- Whether the value is a string (the typeof check). -/
def isStringVal : JVal → Bool
  | .vStr _ => true
  | _ => false

/-- The SET_MANUAL_TOKEN payload. -/
structure TokenPayload where
  token : Option JVal := none
  deviceId : Option String := none
  language : Option String := none
  deriving DecidableEq, Repr

/-- The credential record kept in (session) storage. -/
structure TokenStore where
  token : Option String := none
  deviceId : Option String := none
  language : Option String := none
  capturedAt : Option Nat := none
  deriving DecidableEq, Repr

/-- The reply of setManualToken. -/
structure SetTokenResult where
  success : Bool
  hasToken : Option Bool := none
  error : Option String := none
  deriving DecidableEq, Repr

/-- setManualToken: reject a missing, non-string, falsy or
whitespace-only token without touching storage; otherwise store the trimmed
token with a fresh capture timestamp (deviceId and language are merged in
only when provided and truthy). -/
def setManualToken (payload : Option TokenPayload) (now : Nat) (store : TokenStore) :
    TokenStore × SetTokenResult :=
  let tok := (payload.getD {}).token
  let dev := (payload.getD {}).deviceId
  let lang := (payload.getD {}).language
  match tok with
  | none => (store, { success := false, error := some "Invalid token" })
  | some v =>
    if !truthy v then (store, { success := false, error := some "Invalid token" })
    else if !isStringVal v then (store, { success := false, error := some "Invalid token" })
    else
      match v with
      | .vStr s =>
        if trimS s = "" then (store, { success := false, error := some "Invalid token" })
        else
          ({ store with
              token := some (trimS s)
              capturedAt := some now
              deviceId := match dev with
                | some d => if d != "" then some d else store.deviceId
                | none => store.deviceId
              language := match lang with
                | some l => if l != "" then some l else store.language
                | none => store.language },
           { success := true, hasToken := some true })
      | _ => (store, { success := false, error := some "Invalid token" })

/-! ## Projections and concrete sample inputs used by the statements below -/

/-- resetSeconds metadata of a daily-limit classification. -/
def dailySeconds : ParseResult → Option Int
  | .daily _ rs _ _ => some rs
  | _ => none

/-- The token field of a SET_MANUAL_TOKEN payload after the JS
destructuring of a possibly absent payload. -/
def tokenField (payload : Option TokenPayload) : Option JVal := (payload.getD {}).token

/-- A sample queued item. -/
def sampleItem : QItem := mkItem 0 "make a sunset video" {} 100

/-- A state that passes every admission check and holds one queued item. -/
def sampleReady : CSState :=
  { initState with queue := [sampleItem], nextId := 1, hasValidToken := true }

/-- A state paused for the daily limit with a pending reset time. -/
def samplePausedDL : CSState :=
  { initState with isPaused := true, pauseReason := some "daily_limit",
                   dailyLimitResetTime := some 99999 }

/-- Trace start for the retry-cap analysis: token captured, one prompt
enqueued. -/
def c3Start : CSState := enqueueClick (tokenCapturedOp initState) "a sunset" {} 0

/-- One full submission round that fails with RATE_LIMIT_UNKNOWN at time t:
the Submit tick marks the head item sending, then the error resolution
requeues or errors it. -/
def unknownRateLimitRound (s : CSState) (t : Nat) : CSState :=
  completeErrorOp (submitTickOp s t) .rateLimitUnknown t

/-- The trace after one, two, three, four failing rounds. -/
def c3s1 : CSState := unknownRateLimitRound c3Start 10000

/-- Trace state after two failing rounds. -/
def c3s2 : CSState := unknownRateLimitRound c3s1 20000

/-- Trace state after three failing rounds. -/
def c3s3 : CSState := unknownRateLimitRound c3s2 30000

/-- Trace state after four failing rounds. -/
def c3s4 : CSState := unknownRateLimitRound c3s3 40000

/-- A stale leader store: tab 1 last heartbeat at time 0. -/
def staleStore : LeaderStore := { controllerTab := some 1, controllerHeartbeat := some 0 }

/-! # Lemmas and claim theorems -/

/-- dropWhile is idempotent. -/
theorem dropWhile_self_idem (p : α → Bool) (l : List α) :
    (l.dropWhile p).dropWhile p = l.dropWhile p := by
  induction l with
  | nil => rfl
  | cons x xs ih =>
    by_cases h : p x
    · simp [List.dropWhile_cons, h, ih]
    · simp [List.dropWhile_cons, h]

/-- The head surviving dropWhile fails the predicate. -/
theorem dropWhile_head_false (p : α → Bool) :
    ∀ {l : List α} {x : α} {xs : List α}, l.dropWhile p = x :: xs → p x = false := by
  intro l
  induction l with
  | nil => intro x xs h; simp at h
  | cons c cs ih =>
    intro x xs h
    by_cases hc : p c
    · rw [List.dropWhile_cons, if_pos hc] at h
      exact ih h
    · rw [List.dropWhile_cons, if_neg hc] at h
      injection h with h1 _
      subst h1
      simpa using hc

/-- A nonempty trimRight result starts with the head of its input. -/
theorem trimRight_head :
    ∀ {l : List Char} {x : Char} {xs : List Char},
      trimRight l = x :: xs → ∃ ys, l = x :: ys := by
  intro l x xs h
  cases l with
  | nil => simp [trimRight] at h
  | cons c cs =>
    rw [trimRight] at h
    by_cases he : (trimRight cs).isEmpty
    · rw [if_pos he] at h
      by_cases hw : isWS c
      · rw [if_pos hw] at h; cases h
      · rw [if_neg hw] at h
        injection h with h1 _
        exact ⟨cs, by rw [h1]⟩
    · rw [if_neg he] at h
      injection h with h1 _
      exact ⟨cs, by rw [h1]⟩

/-- trimRight is idempotent. -/
theorem trimRight_idem (l : List Char) : trimRight (trimRight l) = trimRight l := by
  induction l with
  | nil => rfl
  | cons c cs ih =>
    rw [trimRight]
    by_cases he : (trimRight cs).isEmpty
    · rw [if_pos he]
      by_cases hw : isWS c
      · rw [if_pos hw]; rfl
      · rw [if_neg hw, trimRight]
        simp [trimRight, hw]
    · rw [if_neg he, trimRight, ih, if_neg he]

/-- trimChars is idempotent. -/
theorem trimChars_idem (l : List Char) : trimChars (trimChars l) = trimChars l := by
  unfold trimChars
  have hdw : (trimRight (l.dropWhile isWS)).dropWhile isWS = trimRight (l.dropWhile isWS) := by
    cases hR : trimRight (l.dropWhile isWS) with
    | nil => rfl
    | cons x xs =>
      obtain ⟨ys, hys⟩ := trimRight_head hR
      have hx : isWS x = false := dropWhile_head_false isWS hys
      rw [List.dropWhile_cons, if_neg (by simp [hx])]
  rw [hdw, trimRight_idem]

/-- JS trim is idempotent. -/
theorem trimS_idem (s : String) : trimS (trimS s) = trimS s :=
  congrArg String.mk (trimChars_idem s.data)

/-- find? returns the first match: the list splits at the found element with
no match before it. -/
theorem find?_first_split (p : α → Bool) :
    ∀ {l : List α} {a : α}, l.find? p = some a →
      ∃ pre post, l = pre ++ a :: post ∧ ∀ x ∈ pre, p x = false := by
  intro l
  induction l with
  | nil => intro a h; simp at h
  | cons c cs ih =>
    intro a h
    by_cases hc : p c
    · rw [List.find?_cons_of_pos _ hc] at h
      injection h with h1
      exact ⟨[], cs, by rw [h1]; rfl, by simp⟩
    · rw [List.find?_cons_of_neg _ hc] at h
      obtain ⟨pre, post, rfl, hpre⟩ := ih h
      refine ⟨c :: pre, post, rfl, ?_⟩
      intro x hx
      rcases List.mem_cons.mp hx with rfl | hx
      · simpa using hc
      · exact hpre x hx

/-- Claim C5 counterexample: on the spec's literal example body
(a top-level resetSeconds field of 120) parse429Response classifies DailyLimit
but reports resetSeconds 0, not 120, because it reads the reset only from
rate_limit_and_credit_balance.access_resets_in_seconds. -/
theorem c5_counterexample :
    dailySeconds
        (parse429 (some { type := some "rate_limit_exhausted", resetSeconds := some 120 }) 1000) =
      some 0 ∧
    dailySeconds
        (parse429 (some { type := some "rate_limit_exhausted", resetSeconds := some 120 }) 1000) ≠
      some 120 := by decide

/-- Claim C5 (amended): every DailyLimit classification reports resetSeconds
read from the body's rate_limit_and_credit_balance.access_resets_in_seconds
field (default 0 when absent; a top-level resetSeconds field is ignored) and
resetTime = now + resetSeconds*1000 when resetSeconds > 0, else unset; the
body carrying the reset in that field classifies as
DailyLimit with resetSeconds 120. -/
theorem c5_daily_metadata (d : Body429) (now : Int) (h : dailyCheck d = true) :
    parse429 (some d) now =
      ParseResult.daily "Daily generation limit reached."
        (dailyResetSeconds d)
        (if dailyResetSeconds d > 0 then some (now + dailyResetSeconds d * 1000) else none)
        (jsOrInt (d.rate_limit_and_credit_balance.bind (·.credit_remaining)) 0) ∧
    dailyResetSeconds d =
      jsOrInt (d.rate_limit_and_credit_balance.bind (·.access_resets_in_seconds)) 0 ∧
    parse429
        (some { type := some "rate_limit_exhausted"
                rate_limit_and_credit_balance :=
                  some { rate_limit_reached := none, credit_remaining := none,
                         access_resets_in_seconds := some 120 } }) 1000 =
      ParseResult.daily "Daily generation limit reached." 120 (some 121000) 0 := by
  refine ⟨?_, rfl, by decide⟩
  simp [parse429, h]

/-- Claim C5 amended witness. -/
theorem c5_daily_metadata_witness :
    dailyCheck { type := some "rate_limit_exhausted" } = true ∧
    parse429 (some { type := some "rate_limit_exhausted" }) 7 =
      ParseResult.daily "Daily generation limit reached." 0 none 0 :=
  ⟨by decide,
    (c5_daily_metadata { type := some "rate_limit_exhausted" } 7 (by decide)).1.trans (by decide)⟩

/-- Claim C6: every 429 body that is not classified as quota exhaustion and
matches a concurrent-limit criterion (the specific error code, num_tasks
equal to 3, or a known phrasing matched case-insensitively) is classified
ConcurrentLimit with numTasks from the body or defaulted to 3; in particular
the error-code example and the phrase example classify as ConcurrentLimit
with numTasks 3. -/
theorem c6_concurrent (d : Body429) (now : Int)
    (hd : dailyCheck d = false) (hc : concCheck d = true) :
    parse429 (some d) now =
      ParseResult.concurrent
        (jsOrStr (d.error.bind (·.message)) "Maximum concurrent generations reached (3).")
        (jsOrInt (errNumTasks d) 3) ∧
    parse429
        (some { error := some { code := some "too_many_concurrent_tasks",
                                message := none, details := none } }) 0 =
      ParseResult.concurrent "Maximum concurrent generations reached (3)." 3 ∧
    parse429
        (some { error := some { code := none,
                                message := some "you can only generate 3 videos at a time",
                                details := none } }) 0 =
      ParseResult.concurrent "you can only generate 3 videos at a time" 3 := by
  refine ⟨?_, by decide, by decide⟩
  simp [parse429, hd, hc]

/-- Claim C6 witness. -/
theorem c6_concurrent_witness :
    dailyCheck
        { error := some { code := none,
                          message := some "You already have 3 generations in progress",
                          details := none } } = false ∧
    concCheck
        { error := some { code := none,
                          message := some "You already have 3 generations in progress",
                          details := none } } = true ∧
    parse429
        (some { error := some { code := none,
                                message := some "You already have 3 generations in progress",
                                details := none } }) 9 =
      ParseResult.concurrent "You already have 3 generations in progress" 3 :=
  ⟨by decide, by decide,
    (c6_concurrent
        { error := some { code := none,
                          message := some "You already have 3 generations in progress",
                          details := none } } 9 (by decide) (by decide)).1.trans (by decide)⟩

/-- Claim C8 counterexample: with the lease of tab 1 stale by 20s (well past
the 10s threshold), candidate tab 2's heartbeat call does not claim the
lease: it returns isController false and leaves the store untouched. -/
theorem c8_counterexample :
    LEASE_STALE_MS < 20000 - (staleStore.controllerHeartbeat.getD 0) ∧
    handleHeartbeat 2 20000 staleStore = (staleStore, false) := by decide

/-- Claim C8 (amended): when the leader's heartbeat is stale by more than
the 10s lease duration, a candidate becomes leader on its next register
call, which rewrites the lease to the candidate; a heartbeat call from an
instance that does not own the lease never claims it, even when stale. -/
theorem c8_stale_claim (tabId now : Nat) (store : LeaderStore) (alive : Nat → Bool)
    (hstale : LEASE_STALE_MS < now - store.controllerHeartbeat.getD 0) :
    registerController tabId now store alive =
      ({ controllerTab := some tabId, controllerHeartbeat := some now }, true) ∧
    ∀ (tid now2 : Nat) (st : LeaderStore),
      st.controllerTab ≠ some tid → handleHeartbeat tid now2 st = (st, false) := by
  constructor
  · unfold registerController
    cases hct : store.controllerTab with
    | none => rfl
    | some cur => simp [hstale]
  · intro tid now2 st hne
    unfold handleHeartbeat
    rw [if_neg (by simpa using hne)]

/-- Claim C8 amended witness. -/
theorem c8_stale_claim_witness :
    LEASE_STALE_MS < 20000 - (staleStore.controllerHeartbeat.getD 0) ∧
    registerController 2 20000 staleStore (fun _ => true) =
      ({ controllerTab := some 2, controllerHeartbeat := some 20000 }, true) :=
  ⟨by decide, (c8_stale_claim 2 20000 staleStore (fun _ => true) (by decide)).1⟩

/-- Claim C9: an input whose trimmed form is empty is rejected at the
enqueue entry point and the queue is unchanged; every item present after an
enqueue is either an old item or carries the trimmed, non-empty input as its
content. -/
theorem c9_enqueue_validation (s : CSState) (input : String) (opts : OptionsIn) (now : Nat) :
    (trimS input = "" → enqueueClick s input opts now = s) ∧
    (∀ x ∈ (enqueueClick s input opts now).queue,
      x ∈ s.queue ∨ (x.prompt = trimS input ∧ x.prompt ≠ "" ∧ trimS x.prompt = x.prompt)) := by
  constructor
  · intro h
    simp [enqueueClick, h]
  · intro x hx
    by_cases h : trimS input = ""
    · simp [enqueueClick, h] at hx
      exact Or.inl hx
    · simp only [enqueueClick, if_pos (by simpa using h), addToQueue] at hx
      rcases List.mem_append.mp hx with hold | hnew
      · exact Or.inl hold
      · right
        have hx' : x = mkItem s.nextId (trimS input) opts now := by simpa using hnew
        subst hx'
        refine ⟨?_, ?_, ?_⟩
        · simp [mkItem, trimS_idem]
        · simp [mkItem, trimS_idem, h]
        · simp [mkItem, trimS_idem]

/-- Claim C9 witness. -/
theorem c9_enqueue_validation_witness :
    enqueueClick initState "   " {} 0 = initState ∧
    ∀ x ∈ (enqueueClick initState "  hi  " {} 1).queue,
      x ∈ initState.queue ∨
        (x.prompt = trimS "  hi  " ∧ x.prompt ≠ "" ∧ trimS x.prompt = x.prompt) :=
  ⟨(c9_enqueue_validation initState "   " {} 0).1 (by decide),
    (c9_enqueue_validation initState "  hi  " {} 1).2⟩

/-- Claim C10: SET_MANUAL_TOKEN rejects a missing, non-string, or
whitespace-only token with success false and the error text Invalid token,
leaving the credential store unchanged; any other token is stored trimmed
with a fresh capture timestamp and the call returns success with hasToken. -/
theorem c10_setManualToken (payload : Option TokenPayload) (now : Nat) (store : TokenStore) :
    (tokenField payload = none →
      setManualToken payload now store =
        (store, { success := false, error := some "Invalid token" })) ∧
    (∀ v, tokenField payload = some v → isStringVal v = false →
      setManualToken payload now store =
        (store, { success := false, error := some "Invalid token" })) ∧
    (∀ str, tokenField payload = some (.vStr str) → trimS str = "" →
      setManualToken payload now store =
        (store, { success := false, error := some "Invalid token" })) ∧
    (∀ str, tokenField payload = some (.vStr str) → trimS str ≠ "" →
      (setManualToken payload now store).2 = { success := true, hasToken := some true } ∧
      (setManualToken payload now store).1.token = some (trimS str) ∧
      (setManualToken payload now store).1.capturedAt = some now) := by
  refine ⟨?_, ?_, ?_, ?_⟩
  · intro h
    simp [setManualToken, tokenField] at h ⊢
    rw [h]
  · intro v hv hstr
    simp only [tokenField] at hv
    cases v with
    | vStr s => simp [isStringVal] at hstr
    | vNum n =>
      simp only [setManualToken]
      rw [hv]
      by_cases hz : n = 0
      · simp [truthy, hz]
      · simp [truthy, hz, isStringVal]
    | vBool b =>
      simp only [setManualToken]
      rw [hv]
      cases b
      · simp [truthy]
      · simp [truthy, isStringVal]
  · intro str hv he
    simp only [tokenField] at hv
    simp only [setManualToken]
    rw [hv]
    by_cases hz : str = ""
    · simp [truthy, hz]
    · simp [truthy, hz, isStringVal, he]
  · intro str hv hne
    have hz : str ≠ "" := by
      intro h0
      exact hne (by rw [h0]; rfl)
    simp only [tokenField] at hv
    simp only [setManualToken]
    rw [hv]
    simp [truthy, hz, isStringVal, hne]

/-- Claim C1: the Submit tick evaluates the eight admission checks in the
spec's order, returns with the state untouched when any check fails or no
item is queued, and otherwise marks the first queued item sending, sets
isSubmitting, records lastSubmitTime = now, and hands that item to the
remote submit collaborator. -/
theorem c1_checkAndSubmit (s : CSState) (now : Nat) :
    admission s now = admissionChecks.all (fun c => c s now) ∧
    (admission s now = false → checkAndSubmit s now = (s, none)) ∧
    (admission s now = true → firstQueued s.queue = none → checkAndSubmit s now = (s, none)) ∧
    (∀ it, admission s now = true → firstQueued s.queue = some it →
      checkAndSubmit s now =
        (updateItemStatus { s with isSubmitting := true, lastSubmitTime := some now }
          it.id .sending none now, some it.id) ∧
      it ∈ s.queue ∧ it.status = .queued ∧
      ∃ pre post, s.queue = pre ++ it :: post ∧ ∀ j ∈ pre, j.status ≠ Status.queued) := by
  refine ⟨?_, ?_, ?_, ?_⟩
  · simp [admission, admissionChecks, Bool.and_assoc]
  · intro h
    unfold checkAndSubmit
    split_ifs with h1 h2 h3 h4 h5 h6 h7 h8
    · rfl
    · rfl
    · rfl
    · rfl
    · rfl
    · rfl
    · rfl
    · rfl
    · exfalso
      have he : s.isAutomationEnabled = true := by simpa using h1
      have hpa : s.isPaused = false := by simpa using h2
      have hsub : s.isSubmitting = false := by simpa using h3
      have ht : s.hasValidToken = true := by simpa using h4
      have hctl : s.isController = true := by simpa using h5
      have hact : s.activeTaskCount < MAX_CONCURRENT_TASKS := Nat.not_le.mp h6
      have hdok : dailyOk s now = true := by simpa using h7
      have hcok : cooldownOk s now = true := by simpa using h8
      simp [admission, he, hpa, hsub, ht, hctl, hdok, hcok, hact] at h
  · intro h hq
    simp only [admission, Bool.and_eq_true, decide_eq_true_eq, Bool.not_eq_true'] at h
    obtain ⟨⟨⟨⟨⟨⟨⟨he, hpa⟩, hsub⟩, ht⟩, hctl⟩, hact⟩, hdok⟩, hcok⟩ := h
    simp [checkAndSubmit, he, hpa, hsub, ht, hctl, hdok, hcok, Nat.not_le.mpr hact, hq]
  · intro it h hq
    simp only [admission, Bool.and_eq_true, decide_eq_true_eq, Bool.not_eq_true'] at h
    obtain ⟨⟨⟨⟨⟨⟨⟨he, hpa⟩, hsub⟩, ht⟩, hctl⟩, hact⟩, hdok⟩, hcok⟩ := h
    refine ⟨?_, List.mem_of_find?_eq_some hq, ?_, ?_⟩
    · simp [checkAndSubmit, he, hpa, hsub, ht, hctl, hdok, hcok, Nat.not_le.mpr hact,
        firstQueued] at hq ⊢
      simp [hq]
    · have := List.find?_some hq
      simpa using this
    · obtain ⟨pre, post, hsplit, hpre⟩ := find?_first_split _ hq
      exact ⟨pre, post, hsplit, fun j hj => by simpa using hpre j hj⟩

/-- Claim C1 witness. -/
theorem c1_checkAndSubmit_witness :
    admission sampleReady 5000 = true ∧
    firstQueued sampleReady.queue = some sampleItem ∧
    checkAndSubmit sampleReady 5000 =
      (updateItemStatus { sampleReady with isSubmitting := true, lastSubmitTime := some 5000 }
        sampleItem.id .sending none 5000, some sampleItem.id) ∧
    sampleItem.status = .queued :=
  ⟨by decide, by decide,
    ((c1_checkAndSubmit sampleReady 5000).2.2.2 sampleItem (by decide) (by decide)).1,
    ((c1_checkAndSubmit sampleReady 5000).2.2.2 sampleItem (by decide) (by decide)).2.2.1⟩

/-- Claim C3 (the code contradicts the retry cap): retryCount is incremented
only by a transition into error status and is left untouched by the
UnknownRateLimit requeue, so a live item's retryCount stays 0 and the
retryCount-below-3 guard always passes: on a trace of four consecutive
RATE_LIMIT_UNKNOWN failures the item is submitted all four times and is
still queued with retryCount 0 afterwards, instead of turning into a
terminal error after 3 retries. -/
theorem c3_retry_cap_never_engages :
    (checkAndSubmit c3Start 10000).2 = some 0 ∧
    (checkAndSubmit c3s1 20000).2 = some 0 ∧
    (checkAndSubmit c3s2 30000).2 = some 0 ∧
    (checkAndSubmit c3s3 40000).2 = some 0 ∧
    c3s4.queue.map (fun i => (i.id, i.status, i.retryCount)) = [(0, Status.queued, 0)] := by
  decide

/-- Claim C4 counterexample: from a state paused for the daily limit with a
pending reset time, the panel's Retry Now handler clears paused and
pauseReason but leaves dailyLimitResetTime set (it is not cleared, contrary
to the claim that all three are cleared), and the popup resume path does not
trigger a Submit tick in the content script. -/
theorem c4_counterexample :
    (retryNowClick samplePausedDL).1.isPaused = false ∧
    (retryNowClick samplePausedDL).1.pauseReason = none ∧
    (retryNowClick samplePausedDL).1.dailyLimitResetTime = some 99999 ∧
    (retryNowClick samplePausedDL).1.dailyLimitResetTime ≠ none ∧
    (storageChangedOp samplePausedDL (popupToggleData (saveData samplePausedDL))).2 = false := by
  decide

/-- Claim C4 (amended): from any paused state, the panel's toggle handler
(when paused for daily_limit), the Retry Now handler, and the popup resume
all clear paused and pauseReason; the two panel handlers re-invoke the
Submit tick immediately while the popup path does not; and none of the
three paths clears dailyLimitResetTime, which keeps its value. -/
theorem c4_resume (s : CSState) (hp : s.isPaused = true) :
    (s.pauseReason = some "daily_limit" →
      toggleAutomationClick s = ({ s with isPaused := false, pauseReason := none }, true)) ∧
    retryNowClick s = ({ s with isPaused := false, pauseReason := none }, true) ∧
    (storageChangedOp s (popupToggleData (saveData s))).1 =
      { s with isPaused := false, pauseReason := none } ∧
    (storageChangedOp s (popupToggleData (saveData s))).2 = false ∧
    (toggleAutomationClick s).1.dailyLimitResetTime = s.dailyLimitResetTime ∧
    (retryNowClick s).1.dailyLimitResetTime = s.dailyLimitResetTime ∧
    (storageChangedOp s (popupToggleData (saveData s))).1.dailyLimitResetTime =
      s.dailyLimitResetTime := by
  obtain ⟨q, nid, en, pa, pr, dl, tok, act, lst, sub, ctl, infl⟩ := s
  simp only at hp
  subst hp
  refine ⟨?_, rfl, ?_, ?_, ?_, rfl, ?_⟩
  · intro hr
    simp only at hr
    simp [toggleAutomationClick, hr]
  · simp [storageChangedOp, popupToggleData, saveData]
  · simp [storageChangedOp, popupToggleData, saveData]
  · by_cases hr : pr == some "daily_limit"
    · simp [toggleAutomationClick, hr]
    · simp [toggleAutomationClick, hr]
  · simp [storageChangedOp, popupToggleData, saveData]

/-- Claim C4 amended witness. -/
theorem c4_resume_witness :
    samplePausedDL.isPaused = true ∧
    retryNowClick samplePausedDL =
      ({ samplePausedDL with isPaused := false, pauseReason := none }, true) :=
  ⟨by decide, (c4_resume samplePausedDL (by decide)).2.1⟩

/-! ## List lemmas for the single-flight and status-transition invariants -/

/-- updateFirst with an id-preserving mutation leaves the id list unchanged. -/
theorem updateFirst_id_map (p : QItem → Bool) (f : QItem → QItem)
    (hf : ∀ y, (f y).id = y.id) (l : List QItem) :
    (updateFirst p f l).map (·.id) = l.map (·.id) := by
  induction l with
  | nil => rfl
  | cons x xs ih =>
    by_cases h : p x
    · simp [updateFirst, h, hf]
    · simp [updateFirst, h, ih]

/-- A member of updateFirst is an old member or the mutation of a matching
old member. -/
theorem mem_updateFirst {p : QItem → Bool} {f : QItem → QItem} :
    ∀ {l : List QItem} {x : QItem}, x ∈ updateFirst p f l →
      x ∈ l ∨ ∃ y ∈ l, p y = true ∧ x = f y := by
  intro l
  induction l with
  | nil => intro x hx; simp [updateFirst] at hx
  | cons c cs ih =>
    intro x hx
    by_cases h : p c
    · rw [updateFirst, if_pos h] at hx
      rcases List.mem_cons.mp hx with rfl | hx'
      · exact Or.inr ⟨c, List.mem_cons_self _ _, h, rfl⟩
      · exact Or.inl (List.mem_cons_of_mem _ hx')
    · rw [updateFirst, if_neg h] at hx
      rcases List.mem_cons.mp hx with rfl | hx'
      · exact Or.inl (List.mem_cons_self _ _)
      · rcases ih hx' with h1 | ⟨y, hy, hpy, rfl⟩
        · exact Or.inl (List.mem_cons_of_mem _ h1)
        · exact Or.inr ⟨y, List.mem_cons_of_mem _ hy, hpy, rfl⟩

/-- With distinct ids, a member of updateFirst keyed on an id either is an
untouched old member with a different id, or is the mutation of the old
member carrying that id. -/
theorem mem_updateFirst_key {f : QItem → QItem} {k : Nat} :
    ∀ {l : List QItem}, (l.map (·.id)).Nodup →
      ∀ x ∈ updateFirst (fun i => i.id == k) f l,
        (x.id ≠ k ∧ x ∈ l) ∨ ∃ y ∈ l, y.id = k ∧ x = f y := by
  intro l
  induction l with
  | nil => intro _ x hx; simp [updateFirst] at hx
  | cons c cs ih =>
    intro hnd x hx
    simp only [List.map_cons, List.nodup_cons] at hnd
    obtain ⟨hnotin, hnd'⟩ := hnd
    by_cases h : (c.id == k) = true
    · rw [updateFirst, if_pos h] at hx
      rcases List.mem_cons.mp hx with rfl | hx'
      · exact Or.inr ⟨c, List.mem_cons_self _ _, by simpa using h, rfl⟩
      · left
        refine ⟨?_, List.mem_cons_of_mem _ hx'⟩
        intro hxk
        apply hnotin
        have hck : c.id = k := by simpa using h
        rw [hck, ← hxk]
        exact List.mem_map_of_mem _ hx'
    · rw [updateFirst, if_neg h] at hx
      rcases List.mem_cons.mp hx with rfl | hx'
      · exact Or.inl ⟨by simpa using h, List.mem_cons_self _ _⟩
      · rcases ih hnd' x hx' with ⟨hne, hmem⟩ | ⟨y, hy, hyk, rfl⟩
        · exact Or.inl ⟨hne, List.mem_cons_of_mem _ hmem⟩
        · exact Or.inr ⟨y, List.mem_cons_of_mem _ hy, hyk, rfl⟩

/-- A member of removeFirst is a member of the original list. -/
theorem mem_removeFirst {p : QItem → Bool} :
    ∀ {l : List QItem} {x : QItem}, x ∈ removeFirst p l → x ∈ l := by
  intro l
  induction l with
  | nil => intro x hx; simp [removeFirst] at hx
  | cons c cs ih =>
    intro x hx
    by_cases h : p c
    · rw [removeFirst, if_pos h] at hx
      exact List.mem_cons_of_mem _ hx
    · rw [removeFirst, if_neg h] at hx
      rcases List.mem_cons.mp hx with rfl | hx'
      · exact List.mem_cons_self _ _
      · exact List.mem_cons_of_mem _ (ih hx')

/-- removeFirst is a sublist of the original list. -/
theorem removeFirst_sublist (p : QItem → Bool) :
    ∀ l : List QItem, List.Sublist (removeFirst p l) l := by
  intro l
  induction l with
  | nil => simp [removeFirst]
  | cons c cs ih =>
    by_cases h : p c
    · rw [removeFirst, if_pos h]
      exact List.sublist_cons_self c cs
    · rw [removeFirst, if_neg h]
      exact ih.cons₂ c

/-- With distinct ids, removing the item keyed on an id leaves only members
with other ids. -/
theorem mem_removeFirst_key {k : Nat} :
    ∀ {l : List QItem}, (l.map (·.id)).Nodup →
      ∀ x ∈ removeFirst (fun i => i.id == k) l, x ∈ l ∧ x.id ≠ k := by
  intro l
  induction l with
  | nil => intro _ x hx; simp [removeFirst] at hx
  | cons c cs ih =>
    intro hnd x hx
    simp only [List.map_cons, List.nodup_cons] at hnd
    obtain ⟨hnotin, hnd'⟩ := hnd
    by_cases h : (c.id == k) = true
    · rw [removeFirst, if_pos h] at hx
      refine ⟨List.mem_cons_of_mem _ hx, ?_⟩
      intro hxk
      apply hnotin
      have hck : c.id = k := by simpa using h
      rw [hck, ← hxk]
      exact List.mem_map_of_mem _ hx
    · rw [removeFirst, if_neg h] at hx
      rcases List.mem_cons.mp hx with rfl | hx'
      · exact ⟨List.mem_cons_self _ _, by simpa using h⟩
      · obtain ⟨hmem, hne⟩ := ih hnd' x hx'
        exact ⟨List.mem_cons_of_mem _ hmem, hne⟩

/-- moveUp permutes the list. -/
theorem moveUpL_perm (k : Nat) : ∀ l : List QItem, List.Perm (moveUpL k l) l := by
  intro l
  induction l with
  | nil => simp [moveUpL]
  | cons x xs ih =>
    cases xs with
    | nil => by_cases h : (x.id == k) = true <;> simp [moveUpL, h]
    | cons y rest =>
      by_cases h : (x.id == k) = true
      · simp [moveUpL, h]
      · by_cases h2 : (y.id == k) = true
        · rw [moveUpL, if_neg h]
          simp only [h2, if_true]
          exact List.Perm.swap x y rest
        · rw [moveUpL, if_neg h]
          simp only [h2, if_false]
          exact List.Perm.cons x ih

/-- moveDown permutes the list. -/
theorem moveDownL_perm (k : Nat) : ∀ l : List QItem, List.Perm (moveDownL k l) l := by
  intro l
  induction l with
  | nil => simp [moveDownL]
  | cons x xs ih =>
    cases xs with
    | nil =>
      have hd : moveDownL k [x] = if x.id == k then [x] else [x] := rfl
      rw [hd, ite_self]
    | cons y rest =>
      have hd : moveDownL k (x :: y :: rest) =
          if x.id == k then y :: x :: rest else x :: moveDownL k (y :: rest) := rfl
      rw [hd]
      by_cases h : (x.id == k) = true
      · rw [if_pos h]
        exact List.Perm.swap x y rest
      · rw [if_neg h]
        exact List.Perm.cons x ih

/-- Resetting sending items leaves the id list unchanged. -/
theorem resetSendingL_id_map (q : List QItem) :
    (resetSendingL q).map (·.id) = q.map (·.id) := by
  induction q with
  | nil => rfl
  | cons x xs ih =>
    simp only [resetSendingL, List.map_cons] at ih ⊢
    by_cases h : (x.status == Status.sending) = true
    · rw [if_pos h, ih]
    · rw [if_neg h, ih]

/-- After the crash-recovery reset no item is in sending status. -/
theorem resetSendingL_no_sending (q : List QItem) :
    ∀ x ∈ resetSendingL q, x.status ≠ Status.sending := by
  intro x hx
  obtain ⟨y, hy, rfl⟩ := List.mem_map.mp hx
  by_cases h : (y.status == Status.sending) = true
  · rw [if_pos h]
    simp
  · rw [if_neg h]
    simpa using h

/-- Members of the crash-recovery reset come from members of the original
queue via the reset mutation. -/
theorem mem_resetSendingL {q : List QItem} {x : QItem} (hx : x ∈ resetSendingL q) :
    ∃ y ∈ q, x = (if y.status == Status.sending then { y with status := .queued } else y) := by
  obtain ⟨y, hy, rfl⟩ := List.mem_map.mp hx
  exact ⟨y, hy, rfl⟩

/-- With distinct ids, two members sharing an id are equal. -/
theorem nodup_id_unique {l : List QItem} (h : (l.map (·.id)).Nodup)
    {a b : QItem} (ha : a ∈ l) (hb : b ∈ l) (hid : a.id = b.id) : a = b := by
  induction l with
  | nil => cases ha
  | cons c cs ih =>
    simp only [List.map_cons, List.nodup_cons] at h
    obtain ⟨hnotin, hnd⟩ := h
    rcases List.mem_cons.mp ha with rfl | ha' <;> rcases List.mem_cons.mp hb with rfl | hb'
    · rfl
    · exfalso; apply hnotin; rw [hid]; exact List.mem_map_of_mem _ hb'
    · exfalso; apply hnotin; rw [← hid]; exact List.mem_map_of_mem _ ha'
    · exact ih hnd ha' hb'

/-- A list whose matches all share one id and whose ids are distinct has at
most one match. -/
theorem countP_le_one_of_unique_id {l : List QItem} (hnd : (l.map (·.id)).Nodup)
    (p : QItem → Bool) (k : Nat) (hp : ∀ x ∈ l, p x = true → x.id = k) :
    l.countP p ≤ 1 := by
  induction l with
  | nil => simp
  | cons c cs ih =>
    simp only [List.map_cons, List.nodup_cons] at hnd
    obtain ⟨hnotin, hnd'⟩ := hnd
    by_cases h : p c = true
    · rw [List.countP_cons_of_pos _ _ h]
      have hc : c.id = k := hp c (List.mem_cons_self _ _) h
      have hzero : cs.countP p = 0 := by
        rw [List.countP_eq_zero]
        intro a ha hpa
        apply hnotin
        have hak : a.id = k := hp a (List.mem_cons_of_mem _ ha) hpa
        rw [hc, ← hak]
        exact List.mem_map_of_mem _ ha
      rw [hzero]
    · rw [List.countP_cons_of_neg _ _ (by simpa using h)]
      exact ih hnd' (fun x hx hpx => hp x (List.mem_cons_of_mem _ hx) hpx)

/-! ## Preservation of the single-flight invariant -/

/-- Inv only looks at queue, counter and the single-flight fields. -/
theorem inv_of_same_core {s s' : CSState} (h : Inv s)
    (hq : s'.queue = s.queue) (hn : s'.nextId = s.nextId)
    (hsub : s'.isSubmitting = s.isSubmitting) (hi : s'.inflight = s.inflight) : Inv s' := by
  unfold Inv at h ⊢
  rw [hq, hn, hsub, hi]
  exact h

/-- addToQueue preserves the invariant. -/
theorem inv_addToQueue {s : CSState} (pr : String) (opts : OptionsIn) (now : Nat)
    (h : Inv s) : Inv (addToQueue s pr opts now) := by
  obtain ⟨h1, h2, h3, h4, h5, h6⟩ := h
  refine ⟨?_, ?_, h3, ?_, ?_, ?_⟩
  · show ((s.queue ++ [mkItem s.nextId pr opts now]).map (·.id)).Nodup
    rw [List.map_append]
    refine List.Nodup.append h1 (by simp) ?_
    intro a ha hb
    have hb' : a = s.nextId := by simpa [mkItem] using hb
    obtain ⟨y, hy, hyid⟩ := List.mem_map.mp ha
    have hlt := h2 y hy
    have hyid' : y.id = a := hyid
    omega
  · show ∀ x ∈ s.queue ++ [mkItem s.nextId pr opts now], x.id < s.nextId + 1
    intro x hx
    rcases List.mem_append.mp hx with hx | hx
    · exact Nat.lt_succ_of_lt (h2 x hx)
    · have hx' : x = mkItem s.nextId pr opts now := by simpa using hx
      subst hx'
      simp [mkItem]
  · show optBound s.inflight (s.nextId + 1) = true
    cases hinf : s.inflight with
    | none => simp [optBound]
    | some i =>
      rw [hinf] at h4
      simp only [optBound, decide_eq_true_eq] at h4 ⊢
      omega
  · show ∀ x ∈ s.queue ++ [mkItem s.nextId pr opts now],
      x.status = .sending → s.inflight = some x.id
    intro x hx hsx
    rcases List.mem_append.mp hx with hx | hx
    · exact h5 x hx hsx
    · have hx' : x = mkItem s.nextId pr opts now := by simpa using hx
      subst hx'
      simp [mkItem] at hsx
  · show ∀ x ∈ s.queue ++ [mkItem s.nextId pr opts now],
      s.inflight = some x.id → x.status = .sending
    intro x hx hinf
    rcases List.mem_append.mp hx with hx | hx
    · exact h6 x hx hinf
    · have hx' : x = mkItem s.nextId pr opts now := by simpa using hx
      subst hx'
      rw [hinf] at h4
      simp only [optBound, decide_eq_true_eq, mkItem] at h4
      omega

/-- The guarded enqueue entry point preserves the invariant. -/
theorem inv_enqueueClick {s : CSState} (input : String) (opts : OptionsIn) (now : Nat)
    (h : Inv s) : Inv (enqueueClick s input opts now) := by
  unfold enqueueClick
  split
  · exact inv_addToQueue _ _ _ h
  · exact h

/-- removeFromQueue preserves the invariant. -/
theorem inv_removeFromQueue {s : CSState} (k : Nat) (h : Inv s) : Inv (removeFromQueue s k) := by
  obtain ⟨h1, h2, h3, h4, h5, h6⟩ := h
  refine ⟨?_, ?_, h3, h4, ?_, ?_⟩
  · show ((removeFirst (fun i => i.id == k) s.queue).map (·.id)).Nodup
    exact List.Nodup.sublist ((removeFirst_sublist _ _).map _) h1
  · intro x hx
    exact h2 x (mem_removeFirst hx)
  · intro x hx hsx
    exact h5 x (mem_removeFirst hx) hsx
  · intro x hx hinf
    exact h6 x (mem_removeFirst hx) hinf

/-- moveUp preserves the invariant. -/
theorem inv_moveUpOp {s : CSState} (k : Nat) (h : Inv s) : Inv (moveUpOp s k) := by
  obtain ⟨h1, h2, h3, h4, h5, h6⟩ := h
  have hperm := moveUpL_perm k s.queue
  refine ⟨?_, ?_, h3, h4, ?_, ?_⟩
  · show ((moveUpL k s.queue).map (·.id)).Nodup
    exact ((hperm.map _).nodup_iff).mpr h1
  · intro x hx; exact h2 x (hperm.mem_iff.mp hx)
  · intro x hx hsx; exact h5 x (hperm.mem_iff.mp hx) hsx
  · intro x hx hinf; exact h6 x (hperm.mem_iff.mp hx) hinf

/-- moveDown preserves the invariant. -/
theorem inv_moveDownOp {s : CSState} (k : Nat) (h : Inv s) : Inv (moveDownOp s k) := by
  obtain ⟨h1, h2, h3, h4, h5, h6⟩ := h
  have hperm := moveDownL_perm k s.queue
  refine ⟨?_, ?_, h3, h4, ?_, ?_⟩
  · show ((moveDownL k s.queue).map (·.id)).Nodup
    exact ((hperm.map _).nodup_iff).mpr h1
  · intro x hx; exact h2 x (hperm.mem_iff.mp hx)
  · intro x hx hsx; exact h5 x (hperm.mem_iff.mp hx) hsx
  · intro x hx hinf; exact h6 x (hperm.mem_iff.mp hx) hinf

/-- Clear Errors preserves the invariant. -/
theorem inv_clearErrors {s : CSState} (h : Inv s) : Inv (clearErrorsOp s) := by
  obtain ⟨h1, h2, h3, h4, h5, h6⟩ := h
  have hsub : List.Sublist (s.queue.filter (fun i => i.status != Status.error)) s.queue :=
    List.filter_sublist _
  refine ⟨List.Nodup.sublist (hsub.map _) h1, ?_, h3, h4, ?_, ?_⟩
  · intro x hx; exact h2 x ((List.mem_filter.mp hx).1)
  · intro x hx hsx; exact h5 x ((List.mem_filter.mp hx).1) hsx
  · intro x hx hinf; exact h6 x ((List.mem_filter.mp hx).1) hinf

/-- Case analysis of checkAndSubmit: either nothing happens, or the guards
all passed (in particular no submission was in flight) and the head queued
item is marked sending. -/
theorem checkAndSubmit_sub (s : CSState) (now : Nat) :
    checkAndSubmit s now = (s, none) ∨
    ∃ it, s.isSubmitting = false ∧ firstQueued s.queue = some it ∧
      checkAndSubmit s now =
        (updateItemStatus { s with isSubmitting := true, lastSubmitTime := some now }
          it.id .sending none now, some it.id) := by
  unfold checkAndSubmit
  split_ifs with h1 h2 h3 h4 h5 h6 h7 h8
  · exact Or.inl rfl
  · exact Or.inl rfl
  · exact Or.inl rfl
  · exact Or.inl rfl
  · exact Or.inl rfl
  · exact Or.inl rfl
  · exact Or.inl rfl
  · exact Or.inl rfl
  · cases hq : firstQueued s.queue with
    | none => exact Or.inl rfl
    | some it =>
      right
      exact ⟨it, by simpa using h3, rfl, rfl⟩

/-- The Submit tick preserves the invariant. -/
theorem inv_submitTick {s : CSState} (now : Nat) (h : Inv s) : Inv (submitTickOp s now) := by
  rcases checkAndSubmit_sub s now with hc | ⟨it, hsub, hq, hc⟩
  · unfold submitTickOp
    rw [hc]
    exact h
  · unfold submitTickOp
    rw [hc]
    obtain ⟨h1, h2, h3, h4, h5, h6⟩ := h
    have hinone : s.inflight = none := by
      rw [hsub] at h3
      cases hi : s.inflight with
      | none => rfl
      | some i => rw [hi] at h3; simp at h3
    have hnosend : ∀ x ∈ s.queue, x.status ≠ Status.sending := by
      intro x hx hsx
      have hcontr := h5 x hx hsx
      rw [hinone] at hcontr
      exact Option.noConfusion hcontr
    have hit : it ∈ s.queue := List.mem_of_find?_eq_some hq
    have hitlt : it.id < s.nextId := h2 it hit
    have hidmap : (updateFirst (fun i => i.id == it.id)
        (setStatus .sending none now) s.queue).map (·.id) = s.queue.map (·.id) :=
      updateFirst_id_map (fun i => i.id == it.id) (setStatus .sending none now)
        (fun y => rfl) s.queue
    refine ⟨?_, ?_, rfl, ?_, ?_, ?_⟩
    · show ((updateFirst (fun i => i.id == it.id)
        (setStatus .sending none now) s.queue).map (·.id)).Nodup
      rw [hidmap]; exact h1
    · show ∀ x ∈ updateFirst (fun i => i.id == it.id)
        (setStatus .sending none now) s.queue, x.id < s.nextId
      intro x hx
      rcases mem_updateFirst hx with hx' | ⟨y, hy, _, rfl⟩
      · exact h2 x hx'
      · exact h2 y hy
    · show optBound (some it.id) s.nextId = true
      simpa [optBound] using hitlt
    · show ∀ x ∈ updateFirst (fun i => i.id == it.id)
        (setStatus .sending none now) s.queue, x.status = .sending → some it.id = some x.id
      intro x hx hsx
      rcases mem_updateFirst hx with hx' | ⟨y, hy, hpy, rfl⟩
      · exact absurd hsx (hnosend x hx')
      · have hyid : y.id = it.id := by simpa using hpy
        simp [setStatus, hyid]
    · show ∀ x ∈ updateFirst (fun i => i.id == it.id)
        (setStatus .sending none now) s.queue, some it.id = some x.id → x.status = .sending
      intro x hx heq
      have hxid : x.id = it.id := by injection heq with h'; exact h'.symm
      rcases mem_updateFirst_key h1 x hx with ⟨hne, _⟩ | ⟨y, hy, hyk, rfl⟩
      · exact absurd hxid hne
      · simp [setStatus]

/-- Successful completion of the in-flight submission preserves the
invariant. -/
theorem inv_completeSuccess {s : CSState} (now : Nat) (h : Inv s) :
    Inv (completeSuccessOp s now) := by
  obtain ⟨h1, h2, h3, h4, h5, h6⟩ := h
  cases hi : s.inflight with
  | none =>
    unfold completeSuccessOp
    rw [hi]
    exact ⟨h1, h2, h3, h4, h5, h6⟩
  | some iid =>
    unfold completeSuccessOp
    rw [hi]
    refine ⟨?_, ?_, rfl, rfl, ?_, ?_⟩
    · show ((removeFirst (fun i => i.id == iid) s.queue).map (·.id)).Nodup
      exact List.Nodup.sublist ((removeFirst_sublist _ _).map _) h1
    · intro x hx
      exact h2 x (mem_removeFirst hx)
    · intro x hx hsx
      obtain ⟨hmem, hne⟩ := mem_removeFirst_key h1 x hx
      have hcontr := h5 x hmem hsx
      rw [hi] at hcontr
      injection hcontr with h'
      exact absurd h'.symm hne
    · intro x hx hnone
      exact Option.noConfusion hnone

/-- Every branch of handleSubmitError rewrites the queue by setting the
in-flight item to a non-sending status and leaves the counter alone. -/
theorem handleSubmitError_shape (s : CSState) (id : Nat) (e : SubmitFailure) (now : Nat) :
    ∃ st msg, st ≠ Status.sending ∧
      (handleSubmitError s id e now).queue =
        updateFirst (fun i => i.id == id) (setStatus st msg now) s.queue ∧
      (handleSubmitError s id e now).nextId = s.nextId := by
  cases e with
  | concurrentLimit => exact ⟨.queued, none, by simp, rfl, rfl⟩
  | dailyLimit rs rt => exact ⟨.queued, none, by simp, rfl, rfl⟩
  | authError => exact ⟨.error, some "Token needed", by simp, rfl, rfl⟩
  | rateLimitUnknown =>
    by_cases hrc : retryCountOf s id < 3
    · exact ⟨.queued, none, by simp,
        by simp [handleSubmitError, hrc, updateItemStatus],
        by simp [handleSubmitError, hrc, updateItemStatus]⟩
    · exact ⟨.error, some "Rate limit (max retries)", by simp,
        by simp [handleSubmitError, hrc, updateItemStatus],
        by simp [handleSubmitError, hrc, updateItemStatus]⟩
  | other msg => exact ⟨.error, some (msg.getD "Unknown error"), by simp, rfl, rfl⟩
  | exception msg => exact ⟨.error, some msg, by simp, rfl, rfl⟩

/-- Failure completion of the in-flight submission preserves the invariant. -/
theorem inv_completeError {s : CSState} (e : SubmitFailure) (now : Nat) (h : Inv s) :
    Inv (completeErrorOp s e now) := by
  obtain ⟨h1, h2, h3, h4, h5, h6⟩ := h
  cases hi : s.inflight with
  | none =>
    unfold completeErrorOp
    rw [hi]
    exact ⟨h1, h2, h3, h4, h5, h6⟩
  | some iid =>
    unfold completeErrorOp
    rw [hi]
    obtain ⟨st, msg, hst, hque, hnid⟩ := handleSubmitError_shape s iid e now
    refine ⟨?_, ?_, rfl, rfl, ?_, ?_⟩
    · show (((handleSubmitError s iid e now).queue).map (·.id)).Nodup
      rw [hque, updateFirst_id_map (fun i => i.id == iid) (setStatus st msg now) (fun y => rfl)]
      exact h1
    · show ∀ x ∈ (handleSubmitError s iid e now).queue,
        x.id < (handleSubmitError s iid e now).nextId
      rw [hque, hnid]
      intro x hx
      rcases mem_updateFirst hx with hx' | ⟨y, hy, _, rfl⟩
      · exact h2 x hx'
      · exact h2 y hy
    · show ∀ x ∈ (handleSubmitError s iid e now).queue,
        x.status = .sending → (none : Option Nat) = some x.id
      rw [hque]
      intro x hx hsx
      rcases mem_updateFirst_key h1 x hx with ⟨hne, hmem⟩ | ⟨y, hy, hyk, rfl⟩
      · have hcontr := h5 x hmem hsx
        rw [hi] at hcontr
        injection hcontr with h'
        exact absurd h'.symm hne
      · exact absurd (by simpa [setStatus] using hsx) hst
    · intro x hx hnone
      exact Option.noConfusion hnone

/-- The panel toggle preserves the invariant. -/
theorem inv_toggleClick {s : CSState} (h : Inv s) : Inv (toggleAutomationClick s).1 := by
  apply inv_of_same_core h <;> unfold toggleAutomationClick <;> split <;> rfl

/-- Retry Now preserves the invariant. -/
theorem inv_retryNow {s : CSState} (h : Inv s) : Inv (retryNowClick s).1 :=
  inv_of_same_core h rfl rfl rfl rfl

/-- The daily-limit sweep preserves the invariant. -/
theorem inv_dailySweep {s : CSState} (now : Nat) (h : Inv s) : Inv (dailySweepOp s now).1 := by
  apply inv_of_same_core h
  all_goals unfold dailySweepOp
  all_goals split
  all_goals first | rfl | (split <;> rfl)

/-- The popup toggle through storage preserves the invariant. -/
theorem inv_popupToggle {s : CSState} (h : Inv s) :
    Inv (storageChangedOp s (popupToggleData (saveData s))).1 := by
  apply inv_of_same_core h
  · show (popupToggleData (saveData s)).queue = s.queue
    unfold popupToggleData
    split
    · rfl
    · split <;> rfl
  · rfl
  · rfl
  · rfl

/-- The popup clear-queue through storage preserves the invariant. -/
theorem inv_popupClear {s : CSState} (h : Inv s) :
    Inv (storageChangedOp s { saveData s with queue := [] }).1 := by
  obtain ⟨h1, h2, h3, h4, h5, h6⟩ := h
  refine ⟨?_, ?_, h3, h4, ?_, ?_⟩
  · show (([] : List QItem).map (·.id)).Nodup
    simp
  · intro x hx
    exact absurd hx (List.not_mem_nil x)
  · intro x hx
    exact absurd hx (List.not_mem_nil x)
  · intro x hx
    exact absurd hx (List.not_mem_nil x)

/-- Restart preserves the invariant. -/
theorem inv_reload {s : CSState} (now : Nat) (h : Inv s) : Inv (reloadOp s now) := by
  obtain ⟨h1, h2, h3, h4, h5, h6⟩ := h
  refine ⟨?_, ?_, rfl, rfl, ?_, ?_⟩
  · show ((resetSendingL s.queue).map (·.id)).Nodup
    rw [resetSendingL_id_map]
    exact h1
  · intro x hx
    obtain ⟨y, hy, rfl⟩ := mem_resetSendingL hx
    by_cases hys : (y.status == Status.sending) = true
    · rw [if_pos hys]; exact h2 y hy
    · rw [if_neg hys]; exact h2 y hy
  · intro x hx hsx
    exact absurd hsx (resetSendingL_no_sending _ x hx)
  · intro x hx hnone
    exact Option.noConfusion hnone

/-- Every step of the event loop preserves the invariant. -/
theorem inv_step {s s' : CSState} (h : Inv s) (hs : Step s s') : Inv s' := by
  cases hs with
  | enqueue input opts now => exact inv_enqueueClick input opts now h
  | remove id => exact inv_removeFromQueue id h
  | moveUp id => exact inv_moveUpOp id h
  | moveDown id => exact inv_moveDownOp id h
  | clearErrors => exact inv_clearErrors h
  | submitTick now => exact inv_submitTick now h
  | completeSuccess now => exact inv_completeSuccess now h
  | completeError e now => exact inv_completeError e now h
  | toggleAutomation => exact inv_toggleClick h
  | retryNow => exact inv_retryNow h
  | dailySweep now => exact inv_dailySweep now h
  | tokenCaptured => exact inv_of_same_core h rfl rfl rfl rfl
  | tokenCleared => exact inv_of_same_core h rfl rfl rfl rfl
  | pollResult n => exact inv_of_same_core h rfl rfl rfl rfl
  | heartbeatResult b => exact inv_of_same_core h rfl rfl rfl rfl
  | popupToggle => exact inv_popupToggle h
  | popupClear => exact inv_popupClear h
  | reload now => exact inv_reload now h

/-- The initial state satisfies the invariant. -/
theorem inv_init : Inv initState := by
  refine ⟨by simp [initState], ?_, rfl, rfl, ?_, ?_⟩
  · intro x hx
    simp [initState] at hx
  · intro x hx
    simp [initState] at hx
  · intro x hx
    simp [initState] at hx

/-- Every reachable state satisfies the invariant. -/
theorem reachable_inv {s : CSState} (h : Reachable s) : Inv s := by
  induction h with
  | refl => exact inv_init
  | tail _ hstep ih => exact inv_step ih hstep

/-- Claim C2: in every reachable state of one leader instance at most one
queue item is in sending status, and whenever the isSubmitting single-flight
flag is clear no item is in sending status at all — every operation of the
event loop preserves this. -/
theorem c2_single_flight (s : CSState) (h : Reachable s) :
    countSending s.queue ≤ 1 ∧
    (s.isSubmitting = false → countSending s.queue = 0) := by
  obtain ⟨h1, h2, h3, h4, h5, h6⟩ := reachable_inv h
  constructor
  · cases hi : s.inflight with
    | none =>
      have hzero : countSending s.queue = 0 := by
        show s.queue.countP (fun i => i.status == Status.sending) = 0
        rw [List.countP_eq_zero]
        intro a ha hpa
        have hc := h5 a ha (by simpa using hpa)
        rw [hi] at hc
        exact Option.noConfusion hc
      omega
    | some iid =>
      show s.queue.countP (fun i => i.status == Status.sending) ≤ 1
      refine countP_le_one_of_unique_id h1 _ iid ?_
      intro x hx hpx
      have hc := h5 x hx (by simpa using hpx)
      rw [hi] at hc
      injection hc with h'
      exact h'.symm
  · intro hsub
    rw [hsub] at h3
    have hinone : s.inflight = none := by
      cases hi : s.inflight with
      | none => rfl
      | some i => rw [hi] at h3; simp at h3
    show s.queue.countP (fun i => i.status == Status.sending) = 0
    rw [List.countP_eq_zero]
    intro a ha hpa
    have hc := h5 a ha (by simpa using hpa)
    rw [hinone] at hc
    exact Option.noConfusion hc

/-- Claim C2 witness. -/
theorem c2_single_flight_witness :
    countSending (enqueueClick (tokenCapturedOp initState) "hi" {} 0).queue ≤ 1 ∧
    ((enqueueClick (tokenCapturedOp initState) "hi" {} 0).isSubmitting = false →
      countSending (enqueueClick (tokenCapturedOp initState) "hi" {} 0).queue = 0) :=
  c2_single_flight _
    (Relation.ReflTransGen.tail
      (Relation.ReflTransGen.tail Relation.ReflTransGen.refl (Step.tokenCaptured initState))
      (Step.enqueue (tokenCapturedOp initState) "hi" {} 0))

/-! ## Status-transition lemmas -/

/-- The allowed-transition predicate holds reflexively. -/
theorem statusStepOk_refl (a : Option Status) (fresh : Prop) : StatusStepOk a a fresh := by
  unfold StatusStepOk
  exact ⟨fun h => Or.inr h, fun h => Or.inr h, fun h => Or.inl h, fun h _ => h⟩

/-- statusOf depends only on the queue. -/
theorem statusOf_congr_queue {s s' : CSState} (h : s'.queue = s.queue) (id : Nat) :
    statusOf s' id = statusOf s id := by
  unfold statusOf
  rw [h]

/-- With distinct ids, statusOf returns some st exactly when a member with
that id has status st. -/
theorem statusOf_some_iff {s : CSState} (hnd : (s.queue.map (·.id)).Nodup)
    {id : Nat} {st : Status} :
    statusOf s id = some st ↔ ∃ x ∈ s.queue, x.id = id ∧ x.status = st := by
  constructor
  · intro h
    unfold statusOf at h
    cases hf : s.queue.find? (fun i => i.id == id) with
    | none => rw [hf] at h; cases h
    | some a =>
      rw [hf] at h
      simp only [Option.map_some'] at h
      injection h with h'
      exact ⟨a, List.mem_of_find?_eq_some hf, by simpa using List.find?_some hf, h'⟩
  · rintro ⟨x, hx, hxid, hxst⟩
    unfold statusOf
    cases hf : s.queue.find? (fun i => i.id == id) with
    | none =>
      rw [List.find?_eq_none] at hf
      exact absurd (by simp [hxid] : (x.id == id) = true) (hf x hx)
    | some a =>
      have ha := List.mem_of_find?_eq_some hf
      have haid : a.id = id := by simpa using List.find?_some hf
      have hax : a = x := nodup_id_unique hnd ha hx (by rw [haid, hxid])
      subst hax
      simp [hxst]

/-- statusOf returns none exactly when no member carries the id. -/
theorem statusOf_none_iff {s : CSState} {id : Nat} :
    statusOf s id = none ↔ ∀ x ∈ s.queue, x.id ≠ id := by
  unfold statusOf
  cases hf : s.queue.find? (fun i => i.id == id) with
  | none =>
    rw [List.find?_eq_none] at hf
    constructor
    · intro _ x hx
      have := hf x hx
      simpa using this
    · intro _
      rfl
  | some a =>
    simp only [Option.map_some']
    constructor
    · intro h; cases h
    · intro hall
      have ha := List.mem_of_find?_eq_some hf
      have haid : a.id = id := by simpa using List.find?_some hf
      exact absurd haid (hall a ha)

/-- statusOf is stable under queue permutation when ids are distinct. -/
theorem statusOf_perm {s s' : CSState} (hperm : List.Perm s'.queue s.queue)
    (hnd : (s.queue.map (·.id)).Nodup) (id : Nat) : statusOf s' id = statusOf s id := by
  have hnd' : (s'.queue.map (·.id)).Nodup := ((hperm.map _).nodup_iff).mpr hnd
  cases hpre : statusOf s id with
  | none =>
    rw [statusOf_none_iff] at hpre
    rw [statusOf_none_iff]
    intro x hx
    exact hpre x (hperm.mem_iff.mp hx)
  | some st =>
    obtain ⟨x, hx, hxid, hxst⟩ := (statusOf_some_iff hnd).mp hpre
    exact (statusOf_some_iff hnd').mpr ⟨x, hperm.mem_iff.mpr hx, hxid, hxst⟩

/-- A step whose resulting queue keeps a subset of the old members (without
mutating any member) satisfies the allowed-transition predicate. -/
theorem statusStepOk_of_sub {s s' : CSState}
    (h1 : (s.queue.map (·.id)).Nodup) (hnd' : ((s'.queue.map (·.id))).Nodup)
    (hsub : ∀ x ∈ s'.queue, x ∈ s.queue) (id : Nat) :
    StatusStepOk (statusOf s id) (statusOf s' id) (id < s.nextId) := by
  refine ⟨?_, ?_, ?_, ?_⟩
  · intro hpost
    obtain ⟨x, hx, hxid, hxst⟩ := (statusOf_some_iff hnd').mp hpost
    exact Or.inr ((statusOf_some_iff h1).mpr ⟨x, hsub x hx, hxid, hxst⟩)
  · intro hpost
    obtain ⟨x, hx, hxid, hxst⟩ := (statusOf_some_iff hnd').mp hpost
    exact Or.inr ((statusOf_some_iff h1).mpr ⟨x, hsub x hx, hxid, hxst⟩)
  · intro hpre
    obtain ⟨x, hx, hxid, hxst⟩ := (statusOf_some_iff h1).mp hpre
    cases hpost : statusOf s' id with
    | none => exact Or.inr rfl
    | some st =>
      left
      obtain ⟨z, hz, hzid, hzst⟩ := (statusOf_some_iff hnd').mp hpost
      have hzx : z = x := nodup_id_unique h1 (hsub z hz) hx (by rw [hzid, hxid])
      subst hzx
      rw [hxst] at hzst
      rw [← hzst]
  · intro hpre hfresh
    rw [statusOf_none_iff] at hpre
    rw [statusOf_none_iff]
    intro z hz
    exact hpre z (hsub z hz)

/-- Claim C7: across every step of one leader instance from a reachable
state, per-item status evolution is restricted to: an item enters sending
only from queued, enters error only from sending, error is terminal while
the item remains, and a removed (or never-existing) id below the freshness
counter does not reappear — so sending is reachable neither from error nor
from a removed item. -/
theorem c7_status_transitions {s s' : CSState} (hr : Reachable s) (hstep : Step s s')
    (id : Nat) :
    StatusStepOk (statusOf s id) (statusOf s' id) (id < s.nextId) := by
  have hInv := reachable_inv hr
  have hInv' := inv_step hInv hstep
  obtain ⟨h1, h2, h3, h4, h5, h6⟩ := hInv
  cases hstep with
  | enqueue input opts now =>
    by_cases hgo : trimS input ≠ ""
    · have hq' : (enqueueClick s input opts now).queue
          = s.queue ++ [mkItem s.nextId (trimS input) opts now] := by
        unfold enqueueClick
        rw [if_pos hgo]
        rfl
      have hnd' := hInv'.1
      refine ⟨?_, ?_, ?_, ?_⟩
      · intro hpost
        obtain ⟨x, hx, hxid, hxst⟩ := (statusOf_some_iff hnd').mp hpost
        rw [hq'] at hx
        rcases List.mem_append.mp hx with hx | hx
        · exact Or.inr ((statusOf_some_iff h1).mpr ⟨x, hx, hxid, hxst⟩)
        · have hx' : x = mkItem s.nextId (trimS input) opts now := by simpa using hx
          subst hx'
          simp [mkItem] at hxst
      · intro hpost
        obtain ⟨x, hx, hxid, hxst⟩ := (statusOf_some_iff hnd').mp hpost
        rw [hq'] at hx
        rcases List.mem_append.mp hx with hx | hx
        · exact Or.inr ((statusOf_some_iff h1).mpr ⟨x, hx, hxid, hxst⟩)
        · have hx' : x = mkItem s.nextId (trimS input) opts now := by simpa using hx
          subst hx'
          simp [mkItem] at hxst
      · intro hpre
        obtain ⟨x, hx, hxid, hxst⟩ := (statusOf_some_iff h1).mp hpre
        cases hpost : statusOf (enqueueClick s input opts now) id with
        | none => exact Or.inr rfl
        | some st =>
          left
          obtain ⟨z, hz, hzid, hzst⟩ := (statusOf_some_iff hnd').mp hpost
          rw [hq'] at hz
          rcases List.mem_append.mp hz with hz | hz
          · have hzx : z = x := nodup_id_unique h1 hz hx (by rw [hzid, hxid])
            subst hzx
            rw [hxst] at hzst
            rw [← hzst]
          · have hz' : z = mkItem s.nextId (trimS input) opts now := by simpa using hz
            subst hz'
            have hlt := h2 x hx
            simp only [mkItem] at hzid
            exfalso
            omega
      · intro hpre hfresh
        rw [statusOf_none_iff] at hpre
        rw [statusOf_none_iff]
        intro z hz
        rw [hq'] at hz
        rcases List.mem_append.mp hz with hz | hz
        · exact hpre z hz
        · have hz' : z = mkItem s.nextId (trimS input) opts now := by simpa using hz
          subst hz'
          simp only [mkItem]
          omega
    · have hq' : (enqueueClick s input opts now).queue = s.queue := by
        unfold enqueueClick
        rw [if_neg hgo]
      rw [statusOf_congr_queue hq']
      exact statusStepOk_refl _ _
  | remove k =>
    refine statusStepOk_of_sub h1 hInv'.1 ?_ id
    intro x hx
    exact mem_removeFirst hx
  | moveUp k =>
    refine statusStepOk_of_sub h1 hInv'.1 ?_ id
    intro x hx
    exact (moveUpL_perm k s.queue).mem_iff.mp hx
  | moveDown k =>
    refine statusStepOk_of_sub h1 hInv'.1 ?_ id
    intro x hx
    exact (moveDownL_perm k s.queue).mem_iff.mp hx
  | clearErrors =>
    refine statusStepOk_of_sub h1 hInv'.1 ?_ id
    intro x hx
    exact (List.mem_filter.mp hx).1
  | submitTick now =>
    rcases checkAndSubmit_sub s now with hc | ⟨it, hsubm, hfq, hc⟩
    · have hq' : (submitTickOp s now).queue = s.queue := by
        unfold submitTickOp
        rw [hc]
      rw [statusOf_congr_queue hq']
      exact statusStepOk_refl _ _
    · have hq' : (submitTickOp s now).queue =
          updateFirst (fun i => i.id == it.id) (setStatus .sending none now) s.queue := by
        unfold submitTickOp
        rw [hc]
        rfl
      have hnd' := hInv'.1
      have hinone : s.inflight = none := by
        rw [hsubm] at h3
        cases hi : s.inflight with
        | none => rfl
        | some i => rw [hi] at h3; simp at h3
      have hnosend : ∀ x ∈ s.queue, x.status ≠ Status.sending := by
        intro x hx hsx
        have hcontr := h5 x hx hsx
        rw [hinone] at hcontr
        exact Option.noConfusion hcontr
      have hit : it ∈ s.queue := List.mem_of_find?_eq_some hfq
      have hitq : it.status = Status.queued := by simpa using List.find?_some hfq
      refine ⟨?_, ?_, ?_, ?_⟩
      · intro hpost
        obtain ⟨x, hx, hxid, hxst⟩ := (statusOf_some_iff hnd').mp hpost
        rw [hq'] at hx
        rcases mem_updateFirst_key h1 x hx with ⟨hne, hmem⟩ | ⟨y, hy, hyk, rfl⟩
        · exact absurd hxst (hnosend x hmem)
        · have hyid : y.id = id := hxid
          have hyit : y = it := nodup_id_unique h1 hy hit hyk
          subst hyit
          exact Or.inl ((statusOf_some_iff h1).mpr ⟨y, hy, hyid, hitq⟩)
      · intro hpost
        obtain ⟨x, hx, hxid, hxst⟩ := (statusOf_some_iff hnd').mp hpost
        rw [hq'] at hx
        rcases mem_updateFirst_key h1 x hx with ⟨hne, hmem⟩ | ⟨y, hy, hyk, rfl⟩
        · exact Or.inr ((statusOf_some_iff h1).mpr ⟨x, hmem, hxid, hxst⟩)
        · simp [setStatus] at hxst
      · intro hpre
        obtain ⟨x, hx, hxid, hxst⟩ := (statusOf_some_iff h1).mp hpre
        cases hpost : statusOf (submitTickOp s now) id with
        | none => exact Or.inr rfl
        | some st =>
          left
          obtain ⟨z, hz, hzid, hzst⟩ := (statusOf_some_iff hnd').mp hpost
          rw [hq'] at hz
          rcases mem_updateFirst_key h1 z hz with ⟨hne, hmem⟩ | ⟨y, hy, hyk, rfl⟩
          · have hzx : z = x := nodup_id_unique h1 hmem hx (by rw [hzid, hxid])
            subst hzx
            rw [hxst] at hzst
            rw [← hzst]
          · exfalso
            have hyid : y.id = id := hzid
            have hyx : y = x := nodup_id_unique h1 hy hx (by rw [hyid, hxid])
            subst hyx
            have hyit : y = it := nodup_id_unique h1 hy hit hyk
            subst hyit
            rw [hitq] at hxst
            exact Status.noConfusion hxst
      · intro hpre hfresh
        rw [statusOf_none_iff] at hpre
        rw [statusOf_none_iff]
        intro z hz
        rw [hq'] at hz
        rcases mem_updateFirst hz with hz' | ⟨y, hy, _, rfl⟩
        · exact hpre z hz'
        · exact hpre y hy
  | completeSuccess now =>
    cases hi : s.inflight with
    | none =>
      have hq' : (completeSuccessOp s now).queue = s.queue := by
        simp [completeSuccessOp, hi]
      rw [statusOf_congr_queue hq']
      exact statusStepOk_refl _ _
    | some iid =>
      have hq' : (completeSuccessOp s now).queue =
          removeFirst (fun i => i.id == iid) s.queue := by
        simp [completeSuccessOp, hi, removeFromQueue]
      refine statusStepOk_of_sub h1 hInv'.1 ?_ id
      intro x hx
      rw [hq'] at hx
      exact mem_removeFirst hx
  | completeError e now =>
    cases hi : s.inflight with
    | none =>
      have hq' : (completeErrorOp s e now).queue = s.queue := by
        simp [completeErrorOp, hi]
      rw [statusOf_congr_queue hq']
      exact statusStepOk_refl _ _
    | some iid =>
      obtain ⟨st0, msg, hst, hque, hnid⟩ := handleSubmitError_shape s iid e now
      have hq' : (completeErrorOp s e now).queue =
          updateFirst (fun i => i.id == iid) (setStatus st0 msg now) s.queue := by
        simp only [completeErrorOp, hi]
        exact hque
      have hnd' := hInv'.1
      refine ⟨?_, ?_, ?_, ?_⟩
      · intro hpost
        obtain ⟨x, hx, hxid, hxst⟩ := (statusOf_some_iff hnd').mp hpost
        rw [hq'] at hx
        rcases mem_updateFirst_key h1 x hx with ⟨hne, hmem⟩ | ⟨y, hy, hyk, rfl⟩
        · exact Or.inr ((statusOf_some_iff h1).mpr ⟨x, hmem, hxid, hxst⟩)
        · simp only [setStatus] at hxst
          exact absurd hxst hst
      · intro hpost
        obtain ⟨x, hx, hxid, hxst⟩ := (statusOf_some_iff hnd').mp hpost
        rw [hq'] at hx
        rcases mem_updateFirst_key h1 x hx with ⟨hne, hmem⟩ | ⟨y, hy, hyk, rfl⟩
        · exact Or.inr ((statusOf_some_iff h1).mpr ⟨x, hmem, hxid, hxst⟩)
        · have hysend : y.status = Status.sending := h6 y hy (by rw [hi, hyk])
          have hyid : y.id = id := hxid
          exact Or.inl ((statusOf_some_iff h1).mpr ⟨y, hy, hyid, hysend⟩)
      · intro hpre
        obtain ⟨x, hx, hxid, hxst⟩ := (statusOf_some_iff h1).mp hpre
        cases hpost : statusOf (completeErrorOp s e now) id with
        | none => exact Or.inr rfl
        | some st =>
          left
          obtain ⟨z, hz, hzid, hzst⟩ := (statusOf_some_iff hnd').mp hpost
          rw [hq'] at hz
          rcases mem_updateFirst_key h1 z hz with ⟨hne, hmem⟩ | ⟨y, hy, hyk, rfl⟩
          · have hzx : z = x := nodup_id_unique h1 hmem hx (by rw [hzid, hxid])
            subst hzx
            rw [hxst] at hzst
            rw [← hzst]
          · exfalso
            have hysend : y.status = Status.sending := h6 y hy (by rw [hi, hyk])
            have hyid : y.id = id := hzid
            have hyx : y = x := nodup_id_unique h1 hy hx (by rw [hyid, hxid])
            subst hyx
            rw [hxst] at hysend
            exact Status.noConfusion hysend
      · intro hpre hfresh
        rw [statusOf_none_iff] at hpre
        rw [statusOf_none_iff]
        intro z hz
        rw [hq'] at hz
        rcases mem_updateFirst hz with hz' | ⟨y, hy, _, rfl⟩
        · exact hpre z hz'
        · exact hpre y hy
  | toggleAutomation =>
    have hq' : (toggleAutomationClick s).1.queue = s.queue := by
      unfold toggleAutomationClick
      split <;> rfl
    rw [statusOf_congr_queue hq']
    exact statusStepOk_refl _ _
  | retryNow =>
    rw [statusOf_congr_queue (rfl : (retryNowClick s).1.queue = s.queue)]
    exact statusStepOk_refl _ _
  | dailySweep now =>
    have hq' : (dailySweepOp s now).1.queue = s.queue := by
      unfold dailySweepOp
      split <;> first | rfl | (split <;> rfl)
    rw [statusOf_congr_queue hq']
    exact statusStepOk_refl _ _
  | tokenCaptured =>
    rw [statusOf_congr_queue (rfl : (tokenCapturedOp s).queue = s.queue)]
    exact statusStepOk_refl _ _
  | tokenCleared =>
    rw [statusOf_congr_queue (rfl : (tokenClearedOp s).queue = s.queue)]
    exact statusStepOk_refl _ _
  | pollResult n =>
    rw [statusOf_congr_queue (rfl : (pollResultOp s n).queue = s.queue)]
    exact statusStepOk_refl _ _
  | heartbeatResult b =>
    rw [statusOf_congr_queue (rfl : (heartbeatResultOp s b).queue = s.queue)]
    exact statusStepOk_refl _ _
  | popupToggle =>
    have hq' : (storageChangedOp s (popupToggleData (saveData s))).1.queue = s.queue := by
      show (popupToggleData (saveData s)).queue = s.queue
      unfold popupToggleData
      split
      · rfl
      · split <;> rfl
    rw [statusOf_congr_queue hq']
    exact statusStepOk_refl _ _
  | popupClear =>
    refine statusStepOk_of_sub h1 hInv'.1 ?_ id
    intro x hx
    exact absurd hx (List.not_mem_nil x)
  | reload now =>
    have hq' : (reloadOp s now).queue = resetSendingL s.queue := rfl
    have hnd' := hInv'.1
    refine ⟨?_, ?_, ?_, ?_⟩
    · intro hpost
      obtain ⟨x, hx, hxid, hxst⟩ := (statusOf_some_iff hnd').mp hpost
      rw [hq'] at hx
      exact absurd hxst (resetSendingL_no_sending _ x hx)
    · intro hpost
      obtain ⟨x, hx, hxid, hxst⟩ := (statusOf_some_iff hnd').mp hpost
      rw [hq'] at hx
      obtain ⟨y, hy, rfl⟩ := mem_resetSendingL hx
      by_cases hys : (y.status == Status.sending) = true
      · rw [if_pos hys] at hxst
        exact absurd hxst (by simp)
      · rw [if_neg hys] at hxid hxst
        exact Or.inr ((statusOf_some_iff h1).mpr ⟨y, hy, hxid, hxst⟩)
    · intro hpre
      obtain ⟨x, hx, hxid, hxst⟩ := (statusOf_some_iff h1).mp hpre
      cases hpost : statusOf (reloadOp s now) id with
      | none => exact Or.inr rfl
      | some st =>
        left
        obtain ⟨z, hz, hzid, hzst⟩ := (statusOf_some_iff hnd').mp hpost
        rw [hq'] at hz
        obtain ⟨y, hy, rfl⟩ := mem_resetSendingL hz
        by_cases hys : (y.status == Status.sending) = true
        · rw [if_pos hys] at hzid
          have hyx : y = x := nodup_id_unique h1 hy hx (by rw [hzid, hxid])
          subst hyx
          rw [hxst] at hys
          simp at hys
        · rw [if_neg hys] at hzid hzst
          have hyx : y = x := nodup_id_unique h1 hy hx (by rw [hzid, hxid])
          subst hyx
          rw [hxst] at hzst
          rw [← hzst]
    · intro hpre hfresh
      rw [statusOf_none_iff] at hpre
      rw [statusOf_none_iff]
      intro z hz
      rw [hq'] at hz
      obtain ⟨y, hy, rfl⟩ := mem_resetSendingL hz
      by_cases hys : (y.status == Status.sending) = true
      · rw [if_pos hys]
        exact hpre y hy
      · rw [if_neg hys]
        exact hpre y hy

/-- Claim C7 witness. -/
theorem c7_status_transitions_witness :
    StatusStepOk (statusOf initState 0) (statusOf (enqueueClick initState "hi" {} 0) 0)
      (0 < initState.nextId) :=
  c7_status_transitions Relation.ReflTransGen.refl
    (Step.enqueue initState "hi" {} 0) 0

/-- Claim C10 witness. -/
theorem c10_setManualToken_witness :
    tokenField (some { token := some (.vStr "  tok  ") }) = some (.vStr "  tok  ") ∧
    trimS "  tok  " ≠ "" ∧
    (setManualToken (some { token := some (.vStr "  tok  ") }) 42 {}).2 =
      { success := true, hasToken := some true } ∧
    (setManualToken (some { token := some (.vStr "  tok  ") }) 42 {}).1.token =
      some (trimS "  tok  ") ∧
    (setManualToken (some { token := some (.vStr "  tok  ") }) 42 {}).1.capturedAt = some 42 :=
  ⟨by decide, by decide,
    (c10_setManualToken (some { token := some (.vStr "  tok  ") }) 42 {}).2.2.2
      "  tok  " (by decide) (by decide)⟩

end Sora
